import Mathlib

/-!
Verification of the uredis client library (RESP codec, cluster router,
sentinel resolver/pool, client state machine).

Source files are embedded shallowly: C++ member functions become Lean
functions over explicit state; network effects are resolved against
oracle functions (`connectOk`, `reply`) indexed by the order in which
the corresponding socket operations happen; machine integers are Nat/Int
with explicit truncation where the C++ code truncates.
-/

/- ===================== Bytes and decimal digits ===================== -/

/-- Byte value of a character, as the C++ code sees one `char` of a
`std::string` reinterpreted as `unsigned char`. -/
def byteOfChar (c : Char) : Nat := c.toNat % 256

/-- Bytes of a key, `RedisClusterClient` hashes keys bytewise. -/
def keyBytes (l : List Char) : List Nat := l.map byteOfChar

/-- Bytes of a whole string. -/
def strBytes (s : String) : List Nat := keyBytes s.data

/-- Decimal digit test on a character. -/
def isDig (c : Char) : Bool := decide (48 ≤ c.toNat ∧ c.toNat ≤ 57)

/-- Character for one decimal digit value. -/
def digitChar (d : Nat) : Char :=
  if d = 0 then '0' else if d = 1 then '1' else if d = 2 then '2'
  else if d = 3 then '3' else if d = 4 then '4' else if d = 5 then '5'
  else if d = 6 then '6' else if d = 7 then '7' else if d = 8 then '8' else '9'

/-- Base-10 rendering of a Nat, most significant digit first, as
`std::to_string` produces it. -/
def natToChars (n : Nat) : List Char :=
  if _h : n < 10 then [digitChar n]
  else natToChars (n / 10) ++ [digitChar (n % 10)]
termination_by n
decreasing_by
  exact Nat.div_lt_self (by omega) (by omega)

/-- Base-10 rendering of an Int with a leading minus sign when negative. -/
def intToChars (i : Int) : List Char :=
  if i < 0 then '-' :: natToChars (-i).toNat else natToChars i.toNat

theorem digitChar_isDig {d : Nat} (h : d < 10) : isDig (digitChar d) = true := by
  interval_cases d <;> decide

theorem digitChar_val {d : Nat} (h : d < 10) : (digitChar d).toNat - 48 = d := by
  interval_cases d <;> decide

theorem natToChars_ne_nil (n : Nat) : natToChars n ≠ [] := by
  rw [natToChars]
  split <;> simp

theorem natToChars_digits (n : Nat) : ∀ c ∈ natToChars n, isDig c = true := by
  induction n using Nat.strong_induction_on with
  | _ n ih =>
    rw [natToChars]
    split
    · intro c hc
      simp only [List.mem_singleton] at hc
      subst hc
      exact digitChar_isDig (by omega)
    · intro c hc
      rcases List.mem_append.mp hc with h1 | h2
      · exact ih (n / 10) (Nat.div_lt_self (by omega) (by omega)) c h1
      · simp only [List.mem_singleton] at h2
        subst h2
        exact digitChar_isDig (Nat.mod_lt _ (by omega))

/-- Accumulator step used both by decimal printing reasoning and by the
greedy digit reader. -/
def digAcc (a : Nat) (c : Char) : Nat := a * 10 + (c.toNat - 48)

theorem foldl_digAcc_natToChars (n : Nat) :
    ∀ a : Nat, List.foldl digAcc a (natToChars n) = a * 10 ^ (natToChars n).length + n := by
  induction n using Nat.strong_induction_on with
  | _ n ih =>
    intro a
    rw [natToChars]
    split
    · rename_i h
      simp [digAcc, digitChar_val h]
    · rename_i h
      rw [List.foldl_append, ih (n / 10) (Nat.div_lt_self (by omega) (by omega)) a]
      simp only [List.foldl_cons, List.foldl_nil, List.length_append, List.length_singleton,
        digAcc]
      rw [digitChar_val (Nat.mod_lt _ (by omega))]
      rw [pow_succ]
      have : a * (10 ^ (natToChars (n / 10)).length * 10) =
          a * 10 ^ (natToChars (n / 10)).length * 10 := by ring
      rw [this]
      omega

/-- Greedy base-10 digit reader: consumes the maximal digit run, as
`std::from_chars` does on the digits part. -/
def readDigits (acc : Nat) : List Char → Nat × List Char
  | [] => (acc, [])
  | c :: rest => if isDig c then readDigits (digAcc acc c) rest else (acc, c :: rest)

theorem readDigits_append (ds : List Char) (hd : ∀ c ∈ ds, isDig c = true) :
    ∀ acc rest, readDigits acc (ds ++ rest) = readDigits (List.foldl digAcc acc ds) rest := by
  induction ds with
  | nil => intro acc rest; simp
  | cons c cs ih =>
    intro acc rest
    simp only [List.cons_append, readDigits, hd c (by simp), if_true, List.foldl_cons]
    exact ih (fun x hx => hd x (by simp [hx])) (digAcc acc c) rest

/-- A list that does not start with a decimal digit. -/
def noDigitHead : List Char → Prop
  | [] => True
  | c :: _ => isDig c = false

theorem readDigits_stop {rest : List Char} (h : noDigitHead rest) (acc : Nat) :
    readDigits acc rest = (acc, rest) := by
  cases rest with
  | nil => rfl
  | cons c cs => simp [readDigits, noDigitHead] at h ⊢; simp [h]

/-- Digit head test, Bool-valued. -/
def digitHead : List Char → Bool
  | [] => false
  | c :: _ => isDig c

/-- Nat reader: fails unless the input starts with a digit, then greedily
reads the digit run (the success case of `std::from_chars` on unsigned). -/
def readNat (l : List Char) : Option (Nat × List Char) :=
  if digitHead l then some (readDigits 0 l) else none

theorem readNat_natToChars (n : Nat) {rest : List Char} (h : noDigitHead rest) :
    readNat (natToChars n ++ rest) = some (n, rest) := by
  have hne := natToChars_ne_nil n
  have hdig := natToChars_digits n
  rcases hnc : natToChars n with _ | ⟨c, cs⟩
  · exact absurd hnc hne
  · rw [hnc] at hdig
    have hc : isDig c = true := hdig c (by simp)
    simp only [readNat, List.cons_append, digitHead, hc, if_true]
    rw [← List.cons_append, ← hnc,
      readDigits_append _ (by rw [hnc]; exact hdig), readDigits_stop h,
      foldl_digAcc_natToChars]
    simp

/-- Int reader: an optional leading minus sign, then digits (the success
case of `std::from_chars` on a signed integer). -/
def readInt (l : List Char) : Option (Int × List Char) :=
  match l with
  | [] => none
  | c :: rest =>
    if c = '-' then (readNat rest).map (fun p => (-(p.1 : Int), p.2))
    else (readNat l).map (fun p => ((p.1 : Int), p.2))

theorem readInt_intToChars (i : Int) {rest : List Char} (h : noDigitHead rest) :
    readInt (intToChars i ++ rest) = some (i, rest) := by
  by_cases hi : i < 0
  · have e1 : intToChars i = '-' :: natToChars (-i).toNat := by
      rw [intToChars, if_pos hi]
    rw [e1, List.cons_append]
    simp only [readInt, if_pos rfl, readNat_natToChars _ h]
    simp only [Option.map_some']
    have h2 : ((-i).toNat : Int) = -i := Int.toNat_of_nonneg (by omega)
    rw [h2]
    simp
  · have e1 : intToChars i = natToChars i.toNat := by
      rw [intToChars, if_neg hi]
    rw [e1]
    have hne := natToChars_ne_nil i.toNat
    have hdig := natToChars_digits i.toNat
    rcases hnc : natToChars i.toNat with _ | ⟨c, cs⟩
    · exact absurd hnc hne
    · rw [hnc] at hdig
      have hc : isDig c = true := hdig c (by simp)
      have hcm : ¬ (c = '-') := by
        intro hcontra
        rw [hcontra] at hc
        simp [isDig] at hc
      rw [List.cons_append]
      simp only [readInt, if_neg hcm]
      rw [← List.cons_append, ← hnc, readNat_natToChars _ h]
      simp only [Option.map_some']
      have h2 : (i.toNat : Int) = i := Int.toNat_of_nonneg (by omega)
      rw [h2]

/- ===================== Slot calculation (C1) ===================== -/

/-- Hash-tag extraction, embedding `RedisClusterClient::extract_hash_tag`:
the substring between the first `\x7b` byte and the next `\x7d` byte when
such a pair exists and encloses at least one byte, otherwise the key. -/
def extract_hash_tag (key : List Nat) : List Nat :=
  match key.findIdx? (fun b => b = 123) with
  | none => key
  | some l =>
    match (key.drop (l + 1)).findIdx? (fun b => b = 125) with
    | none => key
    | some r0 => if r0 = 0 then key else (key.drop (l + 1)).take r0

/-- One CRC16 shift round, embedding the inner loop body of
`RedisClusterClient::calc_slot` on a 16-bit register. -/
def crcShift (c : Nat) : Nat :=
  if c &&& 32768 ≠ 0 then ((c <<< 1) ^^^ 4129) % 65536 else (c <<< 1) % 65536

/-- Eight shift rounds. -/
def crc8 (c : Nat) : Nat :=
  crcShift (crcShift (crcShift (crcShift (crcShift (crcShift (crcShift (crcShift c)))))))

/-- CRC16 byte-absorption step: xor the byte into the high half of the
register, then run eight shift rounds. -/
def crcByte (crc b : Nat) : Nat := crc8 ((crc ^^^ ((b % 256) <<< 8)) % 65536)

/-- Embeds `RedisClusterClient::calc_slot`: CRC16 (poly 0x1021, init 0,
MSB-first, no reflection, no final xor) of the key bytes, mod 16384; the
empty key maps to 0. -/
def calc_slot (key : List Nat) : Nat :=
  if key = [] then 0 else (key.foldl crcByte 0) % 16384

/-- Key-to-slot function as routed by `node_index_for_key_nolock`: hash the
extracted tag when non-empty, otherwise the whole key. -/
def slotOfKey (key : List Nat) : Nat :=
  let tag := extract_hash_tag key
  calc_slot (if tag = [] then key else tag)

/-- Slot of a textual key. -/
def slotOfString (s : String) : Nat := slotOfKey (strBytes s)

theorem calc_slot_lt (key : List Nat) : calc_slot key < 16384 := by
  unfold calc_slot
  split
  · omega
  · exact Nat.mod_lt _ (by omega)

/-- Claim C1: the cluster slot function hashes the non-empty hash tag when a
`\x7b`/`\x7d` pair exists, otherwise the whole key, with CRC16-CCITT
(poly 0x1021, init 0, MSB-first) mod 16384; concretely
slot("foo") = 12182, slot("") = 0, slot("\x7btag\x7dkey") = slot("tag"),
slot("a\x7b\x7db") hashes the whole key unchanged, and every slot is
below 16384. -/
theorem claim_C1_slot_function :
    slotOfString "foo" = 12182 ∧
    slotOfString "" = 0 ∧
    slotOfString "\x7btag\x7dkey" = slotOfString "tag" ∧
    slotOfString "a\x7b\x7db" = calc_slot (strBytes "a\x7b\x7db") ∧
    (∀ k : List Nat, slotOfKey k < 16384) := by
  refine ⟨by decide, by decide, by decide, by decide, ?_⟩
  intro k
  unfold slotOfKey
  exact calc_slot_lt _

/- ===================== RESP-2 values and codec (C2) ===================== -/

/-- RESP-2 value, the `RedisValue` data model: Null, SimpleString, Error,
Integer, BulkString, Array. Strings are byte lists (one `Char` per byte). -/
inductive RValue where
  | null : RValue
  | simple : List Char → RValue
  | errv : List Char → RValue
  | intv : Int → RValue
  | bulk : List Char → RValue
  | arr : List RValue → RValue

/-- CRLF terminator. -/
def crlf : List Char := ['\r', '\n']

mutual
/-- Modelled from the spec: canonical RESP-2 serialization of a value
(`+`, `-`, `:` lines; `$`-prefixed bulk; `*`-prefixed array; Null written
as the `$-1` bulk form). The repository encodes only commands
(`RedisClient::encode_command`); the general value serializer mirrors the
spec wire-format section. -/
def encodeVal : RValue → List Char
  | .null => '$' :: '-' :: '1' :: crlf
  | .simple s => '+' :: (s ++ crlf)
  | .errv s => '-' :: (s ++ crlf)
  | .intv i => ':' :: (intToChars i ++ crlf)
  | .bulk s => '$' :: (natToChars s.length ++ crlf ++ s ++ crlf)
  | .arr vs => '*' :: (natToChars vs.length ++ crlf ++ encodeList vs)

/-- Concatenated serializations of array elements. -/
def encodeList : List RValue → List Char
  | [] => []
  | v :: vs => encodeVal v ++ encodeList vs
end

/-- Embeds `RedisClient::encode_command`: `*<1+argc>\r\n` followed by each
of verb and arguments as `$<len>\r\n<bytes>\r\n`. -/
def encode_command (cmd : List Char) (args : List (List Char)) : List Char :=
  '*' :: (natToChars (1 + args.length) ++ crlf)
    ++ encodeVal (.bulk cmd)
    ++ (args.map (fun a => encodeVal (.bulk a))).flatten

/-- Expect a CRLF pair at the head. -/
def expectCRLF : List Char → Option (List Char)
  | c1 :: c2 :: rest => if c1 = '\r' then (if c2 = '\n' then some rest else none) else none
  | _ => none

/-- Modelled from the spec: read one line up to CRLF (`+`/`-` payloads).
A CR must begin the terminator, which is where the incremental parser of
`RespParser.h` (absent from the snapshot) stops a simple line. -/
def readLine : List Char → Option (List Char × List Char)
  | [] => none
  | c :: rest =>
    if c = '\r' then
      match rest with
      | c2 :: rest2 => if c2 = '\n' then some ([], rest2) else none
      | [] => none
    else (readLine rest).map (fun p => (c :: p.1, p.2))

/-- Take exactly `n` payload bytes. -/
def takeN (n : Nat) (l : List Char) : Option (List Char × List Char) :=
  if n ≤ l.length then some (l.take n, l.drop n) else none

mutual
/-- Modelled from the spec: recursive-descent RESP-2 frame parser
(`RespParser.h` is absent from the snapshot). Frame type from the first
byte: `+` simple line, `-` error line, `:` signed integer, `$` bulk with
length prefix (`-1` means Null), `*` array with count prefix (`-1` means
Null); anything else is rejected. `fuel` bounds recursion depth. -/
def parseVal : Nat → List Char → Option (RValue × List Char)
  | 0, _ => none
  | _ + 1, [] => none
  | fuel + 1, c :: rest =>
    if c = '+' then (readLine rest).map (fun p => (RValue.simple p.1, p.2))
    else if c = '-' then (readLine rest).map (fun p => (RValue.errv p.1, p.2))
    else if c = ':' then
      match readInt rest with
      | none => none
      | some (i, r1) =>
        match expectCRLF r1 with
        | none => none
        | some r2 => some (RValue.intv i, r2)
    else if c = '$' then
      if digitHead rest then
        match readNat rest with
        | none => none
        | some (n, r1) =>
          match expectCRLF r1 with
          | none => none
          | some r2 =>
            match takeN n r2 with
            | none => none
            | some (payload, r3) =>
              match expectCRLF r3 with
              | none => none
              | some r4 => some (RValue.bulk payload, r4)
      else
        match rest with
        | '-' :: rest2 =>
          match readNat rest2 with
          | none => none
          | some (n, r1) =>
            if n = 1 then (expectCRLF r1).map (fun r2 => (RValue.null, r2)) else none
        | _ => none
    else if c = '*' then
      if digitHead rest then
        match readNat rest with
        | none => none
        | some (n, r1) =>
          match expectCRLF r1 with
          | none => none
          | some r2 =>
            match parseMany fuel n r2 with
            | none => none
            | some (vs, r3) => some (RValue.arr vs, r3)
      else
        match rest with
        | '-' :: rest2 =>
          match readNat rest2 with
          | none => none
          | some (n, r1) =>
            if n = 1 then (expectCRLF r1).map (fun r2 => (RValue.null, r2)) else none
        | _ => none
    else none

/-- Parse `n` consecutive frames. -/
def parseMany : Nat → Nat → List Char → Option (List RValue × List Char)
  | _, 0, l => some ([], l)
  | 0, _ + 1, _ => none
  | fuel + 1, n + 1, l =>
    match parseVal fuel l with
    | none => none
    | some (v, r) =>
      match parseMany fuel n r with
      | none => none
      | some (vs, r2) => some (v :: vs, r2)
end

/-- Top-level parse of a byte stream: the input length over-approximates
any frame-nesting depth the stream can contain. -/
def parseResp (l : List Char) : Option (RValue × List Char) := parseVal l.length l

/-- Line payloads representable on one RESP line: no CR, no LF. -/
def noCRLF (s : List Char) : Bool := decide ('\r' ∉ s) && decide ('\n' ∉ s)

mutual
/-- RESP-2 representability: simple and error lines carry no CR/LF, and
integers fit a signed 64-bit word. -/
def wfV : RValue → Bool
  | .null => true
  | .simple s => noCRLF s
  | .errv s => noCRLF s
  | .intv i => decide (-(2 ^ 63) ≤ i ∧ i < 2 ^ 63)
  | .bulk _ => true
  | .arr vs => wfL vs

/-- Representability of every array element. -/
def wfL : List RValue → Bool
  | [] => true
  | v :: vs => wfV v && wfL vs
end

mutual
/-- Recursion-depth demand of a value for `parseVal`. -/
def needF : RValue → Nat
  | .arr vs => 1 + needL vs
  | _ => 1

/-- Recursion-depth demand of an element list for `parseMany`. -/
def needL : List RValue → Nat
  | [] => 0
  | v :: vs => 1 + needF v + needL vs
end

theorem noCRLF_no_cr {s : List Char} (h : noCRLF s = true) : '\r' ∉ s := by
  simp only [noCRLF, Bool.and_eq_true, decide_eq_true_eq] at h
  exact h.1

theorem readLine_rt {s : List Char} (h : '\r' ∉ s) (rest : List Char) :
    readLine (s ++ '\r' :: '\n' :: rest) = some (s, rest) := by
  induction s with
  | nil => rfl
  | cons c cs ih =>
    have hc : ¬ (c = '\r') := fun hcontra => h (by simp [hcontra])
    simp only [List.cons_append, readLine, if_neg hc, List.append_eq]
    rw [ih (fun hm => h (by simp [hm]))]
    rfl

theorem takeN_rt (s t : List Char) : takeN s.length (s ++ t) = some (s, t) := by
  unfold takeN
  rw [if_pos (by simp)]
  rw [List.take_left, List.drop_left]

theorem digitHead_natToChars (n : Nat) (rest : List Char) :
    digitHead (natToChars n ++ rest) = true := by
  rcases hnc : natToChars n with _ | ⟨c, cs⟩
  · exact absurd hnc (natToChars_ne_nil n)
  · have : isDig c = true := by
      have := natToChars_digits n
      rw [hnc] at this
      exact this c (by simp)
    simp [digitHead, this]

theorem noDigitHead_cr (rest : List Char) : noDigitHead ('\r' :: rest) := by
  simp [noDigitHead, isDig]

theorem parseVal_succ_plus (f : Nat) (l : List Char) :
    parseVal (f + 1) ('+' :: l) = (readLine l).map (fun p => (RValue.simple p.1, p.2)) := rfl

theorem parseVal_succ_minus (f : Nat) (l : List Char) :
    parseVal (f + 1) ('-' :: l) = (readLine l).map (fun p => (RValue.errv p.1, p.2)) := rfl

theorem parseVal_succ_colon (f : Nat) (l : List Char) :
    parseVal (f + 1) (':' :: l) =
      (match readInt l with
        | none => none
        | some (i, r1) =>
          match expectCRLF r1 with
          | none => none
          | some r2 => some (RValue.intv i, r2)) := rfl

theorem parseVal_succ_dollar_dig (f : Nat) (l : List Char) (h : digitHead l = true) :
    parseVal (f + 1) ('$' :: l) =
      (match readNat l with
        | none => none
        | some (n, r1) =>
          match expectCRLF r1 with
          | none => none
          | some r2 =>
            match takeN n r2 with
            | none => none
            | some (payload, r3) =>
              match expectCRLF r3 with
              | none => none
              | some r4 => some (RValue.bulk payload, r4)) := by
  show (if digitHead l then _ else _) = _
  rw [if_pos h]

theorem parseVal_succ_star_dig (f : Nat) (l : List Char) (h : digitHead l = true) :
    parseVal (f + 1) ('*' :: l) =
      (match readNat l with
        | none => none
        | some (n, r1) =>
          match expectCRLF r1 with
          | none => none
          | some r2 =>
            match parseMany f n r2 with
            | none => none
            | some (vs, r3) => some (RValue.arr vs, r3)) := by
  show (if digitHead l then _ else _) = _
  rw [if_pos h]

theorem needF_pos (v : RValue) : 1 ≤ needF v := by
  cases v <;> simp [needF]

mutual
theorem parse_encodeVal (v : RValue) :
    ∀ (_ : wfV v = true) (fuel : Nat) (_ : needF v ≤ fuel) (rest : List Char),
      parseVal fuel (encodeVal v ++ rest) = some (v, rest) := by
  intro hw fuel hf rest
  obtain ⟨f, rfl⟩ : ∃ f, fuel = f + 1 := ⟨fuel - 1, by have := needF_pos v; omega⟩
  match v with
  | .null => rfl
  | .simple s =>
    have hcr : '\r' ∉ s := noCRLF_no_cr hw
    show parseVal (f + 1) ('+' :: ((s ++ crlf) ++ rest)) = _
    rw [parseVal_succ_plus]
    have : (s ++ crlf) ++ rest = s ++ '\r' :: '\n' :: rest := by simp [crlf]
    rw [this, readLine_rt hcr]
    rfl
  | .errv s =>
    have hcr : '\r' ∉ s := noCRLF_no_cr hw
    show parseVal (f + 1) ('-' :: ((s ++ crlf) ++ rest)) = _
    rw [parseVal_succ_minus]
    have : (s ++ crlf) ++ rest = s ++ '\r' :: '\n' :: rest := by simp [crlf]
    rw [this, readLine_rt hcr]
    rfl
  | .intv i =>
    show parseVal (f + 1) (':' :: ((intToChars i ++ crlf) ++ rest)) = _
    rw [parseVal_succ_colon]
    have : (intToChars i ++ crlf) ++ rest = intToChars i ++ '\r' :: '\n' :: rest := by
      simp [crlf]
    rw [this, readInt_intToChars i (noDigitHead_cr _)]
    rfl
  | .bulk s =>
    show parseVal (f + 1)
      ('$' :: ((natToChars s.length ++ crlf ++ s ++ crlf) ++ rest)) = _
    have hsh : (natToChars s.length ++ crlf ++ s ++ crlf) ++ rest =
        natToChars s.length ++ '\r' :: '\n' :: (s ++ '\r' :: '\n' :: rest) := by
      simp [crlf]
    rw [hsh, parseVal_succ_dollar_dig _ _ (digitHead_natToChars _ _),
      readNat_natToChars _ (noDigitHead_cr _)]
    show (match takeN s.length (s ++ '\r' :: '\n' :: rest) with
      | none => none
      | some (payload, r3) =>
        match expectCRLF r3 with
        | none => none
        | some r4 => some (RValue.bulk payload, r4)) = _
    rw [takeN_rt]
    rfl
  | .arr vs =>
    have hwl : wfL vs = true := hw
    have hnl : needL vs ≤ f := by
      have : needF (RValue.arr vs) = 1 + needL vs := rfl
      omega
    show parseVal (f + 1) ('*' :: ((natToChars vs.length ++ crlf ++ encodeList vs) ++ rest)) = _
    have hsh : (natToChars vs.length ++ crlf ++ encodeList vs) ++ rest =
        natToChars vs.length ++ '\r' :: '\n' :: (encodeList vs ++ rest) := by
      simp [crlf]
    rw [hsh, parseVal_succ_star_dig _ _ (digitHead_natToChars _ _),
      readNat_natToChars _ (noDigitHead_cr _)]
    show (match parseMany f vs.length (encodeList vs ++ rest) with
      | none => none
      | some (ws, r3) => some (RValue.arr ws, r3)) = _
    rw [parse_encodeList vs hwl f hnl rest]

theorem parse_encodeList (vs : List RValue) :
    ∀ (_ : wfL vs = true) (fuel : Nat) (_ : needL vs ≤ fuel) (rest : List Char),
      parseMany fuel vs.length (encodeList vs ++ rest) = some (vs, rest) := by
  intro hw fuel hf rest
  match vs with
  | [] =>
    show parseMany fuel 0 rest = some ([], rest)
    cases fuel <;> rfl
  | v :: ws =>
    have hwv : wfV v = true := by
      have he : wfL (v :: ws) = (wfV v && wfL ws) := rfl
      rw [he] at hw
      exact ((Bool.and_eq_true _ _).mp hw).1
    have hww : wfL ws = true := by
      have he : wfL (v :: ws) = (wfV v && wfL ws) := rfl
      rw [he] at hw
      exact ((Bool.and_eq_true _ _).mp hw).2
    have hneed : needL (v :: ws) = 1 + needF v + needL ws := rfl
    rw [hneed] at hf
    obtain ⟨f, rfl⟩ : ∃ f, fuel = f + 1 := ⟨fuel - 1, by omega⟩
    have hfv : needF v ≤ f := by omega
    have hfw : needL ws ≤ f := by omega
    show parseMany (f + 1) (ws.length + 1) ((encodeVal v ++ encodeList ws) ++ rest) =
      some (v :: ws, rest)
    have hsh : (encodeVal v ++ encodeList ws) ++ rest =
        encodeVal v ++ (encodeList ws ++ rest) := by simp
    show (match parseVal f ((encodeVal v ++ encodeList ws) ++ rest) with
      | none => none
      | some (w, r) =>
        match parseMany f ws.length r with
        | none => none
        | some (us, r2) => some (w :: us, r2)) = _
    rw [hsh, parse_encodeVal v hwv f hfv (encodeList ws ++ rest)]
    show (match parseMany f ws.length (encodeList ws ++ rest) with
      | none => none
      | some (us, r2) => some (v :: us, r2)) = _
    rw [parse_encodeList ws hww f hfw rest]
end

theorem natToChars_length_pos (n : Nat) : 1 ≤ (natToChars n).length := by
  rcases h : natToChars n with _ | ⟨c, cs⟩
  · exact absurd h (natToChars_ne_nil n)
  · simp

theorem intToChars_length_pos (i : Int) : 1 ≤ (intToChars i).length := by
  unfold intToChars
  split
  · simp
  · exact natToChars_length_pos _

mutual
theorem needF_le_length (v : RValue) : needF v + 2 ≤ (encodeVal v).length := by
  match v with
  | .null => simp [needF, encodeVal, crlf]
  | .simple s => simp [needF, encodeVal, crlf]
  | .errv s => simp [needF, encodeVal, crlf]
  | .intv i =>
    have := intToChars_length_pos i
    simp [needF, encodeVal, crlf]
  | .bulk s =>
    have := natToChars_length_pos s.length
    simp [needF, encodeVal, crlf]
    omega
  | .arr vs =>
    have h1 := needL_le_length vs
    have h2 := natToChars_length_pos vs.length
    simp [needF, encodeVal, crlf]
    omega

theorem needL_le_length (vs : List RValue) : needL vs ≤ (encodeList vs).length := by
  match vs with
  | [] => simp [needL, encodeList]
  | v :: ws =>
    have h1 := needF_le_length v
    have h2 := needL_le_length ws
    simp [needL, encodeList]
    omega
end

theorem parseResp_encodeVal {v : RValue} (hw : wfV v = true) :
    parseResp (encodeVal v) = some (v, []) := by
  unfold parseResp
  have h1 : needF v ≤ (encodeVal v).length := by
    have := needF_le_length v
    omega
  have h2 := parse_encodeVal v hw (encodeVal v).length h1 []
  rwa [List.append_nil] at h2

theorem encodeList_map_bulk (l : List (List Char)) :
    encodeList (l.map RValue.bulk) = (l.map (fun a => encodeVal (RValue.bulk a))).flatten := by
  induction l with
  | nil => rfl
  | cons a t ih => simp [encodeList, ih]

theorem encode_command_eq (cmd : List Char) (args : List (List Char)) :
    encode_command cmd args =
      encodeVal (RValue.arr (RValue.bulk cmd :: args.map RValue.bulk)) := by
  show _ = '*' :: (natToChars (RValue.bulk cmd :: args.map RValue.bulk).length ++ crlf
    ++ encodeList (RValue.bulk cmd :: args.map RValue.bulk))
  have hlen : (RValue.bulk cmd :: args.map RValue.bulk).length = 1 + args.length := by
    simp [Nat.add_comm]
  rw [hlen]
  show _ = '*' :: (natToChars (1 + args.length) ++ crlf
    ++ (encodeVal (RValue.bulk cmd) ++ encodeList (args.map RValue.bulk)))
  rw [encodeList_map_bulk]
  unfold encode_command
  simp

theorem wfL_map_bulk (l : List (List Char)) : wfL (l.map RValue.bulk) = true := by
  induction l with
  | nil => rfl
  | cons a t ih => simp [wfL, wfV, ih]

/-- Claim C2: parsing the canonical RESP-2 serialization of any
representable Value returns that same Value with no leftover bytes; in
particular the byte stream `RedisClient::encode_command` produces for
`(verb, args)` parses back to the Array of `1 + |args|` BulkStrings. -/
theorem claim_C2_resp_roundtrip :
    (∀ v : RValue, wfV v = true → parseResp (encodeVal v) = some (v, [])) ∧
    (∀ (cmd : List Char) (args : List (List Char)),
      parseResp (encode_command cmd args) =
        some (RValue.arr (RValue.bulk cmd :: args.map RValue.bulk), [])) := by
  constructor
  · intro v hw
    exact parseResp_encodeVal hw
  · intro cmd args
    rw [encode_command_eq]
    refine parseResp_encodeVal ?_
    show wfL (RValue.bulk cmd :: args.map RValue.bulk) = true
    simp [wfL, wfV, wfL_map_bulk]

/-- Witness evaluating claim C2 at a concrete representable value and a
concrete command. -/
theorem claim_C2_resp_roundtrip_witness :
    (wfV (RValue.arr [RValue.intv 42, RValue.bulk ['o', 'k'], RValue.null]) = true ∧
      parseResp (encodeVal (RValue.arr [RValue.intv 42, RValue.bulk ['o', 'k'], RValue.null])) =
        some (RValue.arr [RValue.intv 42, RValue.bulk ['o', 'k'], RValue.null], [])) ∧
    parseResp (encode_command ['G', 'E', 'T'] [['f', 'o', 'o']]) =
      some (RValue.arr [RValue.bulk ['G', 'E', 'T'], RValue.bulk ['f', 'o', 'o']], []) :=
  ⟨⟨by decide, claim_C2_resp_roundtrip.1 _ (by decide)⟩,
    claim_C2_resp_roundtrip.2 ['G', 'E', 'T'] [['f', 'o', 'o']]⟩

/- ===================== Cluster router model (C3 - C6) ===================== -/

/-- Error taxonomy of `RedisErrorCategory`. -/
inductive ErrCat where
  | ioErr
  | protoErr
  | serverReply
deriving DecidableEq

/-- Structured error (`RedisError`): a category and a message. -/
structure RedisErrorM where
  cat : ErrCat
  msg : String
deriving DecidableEq

/-- Redirection kind (`RedisClusterClient::RedirType`). -/
inductive RedirType where
  | noneR
  | moved
  | ask
deriving DecidableEq

/-- Parsed redirection (`RedisClusterClient::Redirection`). -/
structure Redirection where
  typ : RedirType
  slot : Int
  host : List Char
  port : Nat
deriving DecidableEq

/-- Embeds the `next_token` lambda of `parse_redirection`: skip leading
spaces, take up to the next space, drop that one space from the rest. -/
def nextToken (l : List Char) : List Char × List Char :=
  let s := l.dropWhile (fun c => c == ' ')
  (s.takeWhile (fun c => !(c == ' ')), (s.dropWhile (fun c => !(c == ' '))).drop 1)

/-- Signed-int prefix parse, the success case of `std::from_chars` on
`int` as `parse_redirection` uses it: optional minus sign, then the
maximal digit run; trailing bytes are ignored (the code discards the end
pointer). Overflow is not modelled. -/
def fromCharsInt (l : List Char) : Option Int :=
  match l with
  | [] => none
  | c :: rest =>
    if c = '-' then
      if digitHead rest then some (-((readDigits 0 rest).1 : Int)) else none
    else if isDig c then some (((readDigits 0 l).1 : Int)) else none

/-- Embeds `RedisClusterClient::parse_redirection`: token `MOVED`/`ASK`,
a slot token read with `from_chars`, and a `host:port` token whose port
must parse and lie in 1..65535. -/
def parse_redirection (msg : String) : Option Redirection :=
  let p0 := nextToken msg.data
  if p0.1 = [] then none
  else
    match (if p0.1 = "MOVED".data then some RedirType.moved
           else if p0.1 = "ASK".data then some RedirType.ask
           else none) with
    | none => none
    | some typ =>
      let p1 := nextToken p0.2
      let p2 := nextToken p1.2
      if p1.1 = [] ∨ p2.1 = [] then none
      else
        match fromCharsInt p1.1 with
        | none => none
        | some slot =>
          match p2.1.findIdx? (fun c => c == ':') with
          | none => none
          | some colon =>
            match fromCharsInt (p2.1.drop (colon + 1)) with
            | none => none
            | some portI =>
              if portI ≤ 0 ∨ 65535 < portI then none
              else some ⟨typ, slot, p2.1.take colon, portI.toNat⟩

/-- Node identity: the `(host, port)` pair `RedisClusterClient` uses to
look nodes up. -/
structure NodeAddr where
  host : List Char
  port : Nat
deriving DecidableEq

/-- Router state guarded by the cluster mutex: node list, the 16384-entry
slot table (total function; the code only reads and writes indices below
16384), the set of node addresses that own a connected `main_client`,
the standalone flag, and per-node idle-pool sizes. -/
structure ClusterState where
  nodes : List NodeAddr
  slotToNode : Nat → Int
  mainClients : List NodeAddr
  standalone : Bool
  idleCounts : List Nat

/-- Network oracle: outcome of the n-th connection-acquisition attempt
(`none` means it succeeded) and the n-th wire command reply. -/
structure NetEnv where
  connectOk : Nat → Option RedisErrorM
  reply : Nat → Except RedisErrorM RValue

/-- Execution state: cluster state, oracle cursors, the log of wire
commands sent as `(destination, verb)`, and the count of routed command
attempts made by the redirection loop. -/
structure Exec where
  cs : ClusterState
  conns : Nat
  cmds : Nat
  sent : List (NodeAddr × String)
  attempts : Nat

/-- First index of an address in the node list, the linear search the
router performs under its mutex. -/
def findNodeIdx (nodes : List NodeAddr) (a : NodeAddr) : Option Nat :=
  match nodes with
  | [] => none
  | n :: rest => if n = a then some 0 else (findNodeIdx rest a).map (· + 1)

/-- Node lookup-or-create step of `get_or_create_main_client_for_node`. -/
def ensureNode (cs : ClusterState) (a : NodeAddr) : ClusterState :=
  match findNodeIdx cs.nodes a with
  | some _ => cs
  | none => { cs with nodes := cs.nodes ++ [a], idleCounts := cs.idleCounts ++ [0] }


/-- Embeds `get_or_create_main_client_for_node`: ensure the node exists,
reuse its connected main client if any, otherwise connect a fresh one
(consuming one connection event). -/
def getMainClient (env : NetEnv) (e : Exec) (a : NodeAddr) :
    Except RedisErrorM Unit × Exec :=
  if a ∈ (ensureNode e.cs a).mainClients then (.ok (), { e with cs := ensureNode e.cs a })
  else
    match env.connectOk e.conns with
    | some er => (.error er, { e with cs := ensureNode e.cs a, conns := e.conns + 1 })
    | none =>
      (.ok (), { e with
        cs := { ensureNode e.cs a with
                mainClients := (ensureNode e.cs a).mainClients ++ [a] },
        conns := e.conns + 1 })

/-- Embeds `RedisClusterClient::apply_moved`: reject out-of-range slots,
ensure a main client for the target, then point the slot at the target
node's index. -/
def applyMoved (env : NetEnv) (e : Exec) (r : Redirection) : Exec :=
  if r.slot < 0 ∨ 16384 ≤ r.slot then e
  else
    match getMainClient env e ⟨r.host, r.port⟩ with
    | (.error _, e1) => e1
    | (.ok _, e1) =>
      match findNodeIdx e1.cs.nodes ⟨r.host, r.port⟩ with
      | none => e1
      | some idx =>
        { e1 with cs := { e1.cs with
            slotToNode := fun s =>
              if s = r.slot.toNat then (idx : Int) else e1.cs.slotToNode s } }

/-- Embeds `node_index_for_slot_nolock`. -/
def nodeIndexForSlot (cs : ClusterState) (slot : Int) : Except RedisErrorM Nat :=
  if slot < 0 ∨ 16384 ≤ slot then
    .error ⟨.protoErr, "RedisClusterClient: invalid slot"⟩
  else if cs.slotToNode slot.toNat < 0 ∨ (cs.nodes.length : Int) ≤ cs.slotToNode slot.toNat then
    .error ⟨.protoErr, "RedisClusterClient: slot mapping is empty"⟩
  else .ok (cs.slotToNode slot.toNat).toNat

/-- Embeds `node_index_for_key_nolock`: no nodes is an error, the empty
key routes to node 0, otherwise hash tag then slot lookup. -/
def nodeIndexForKey (cs : ClusterState) (key : List Char) : Except RedisErrorM Nat :=
  if cs.nodes = [] then .error ⟨.protoErr, "RedisClusterClient: no nodes"⟩
  else if key = [] then .ok 0
  else nodeIndexForSlot cs ((slotOfKey (keyBytes key) : Nat) : Int)

/-- Placeholder address behind a bounds check that the code has already
performed. -/
def dummyAddr : NodeAddr := ⟨[], 0⟩

/-- Routing step of `acquire_client_for_any` / `acquire_client_for_key`:
pick the first node for key-less commands and for the empty key,
otherwise resolve the key's slot to a node. -/
def routeNode (cs : ClusterState) (argsEmpty : Bool) (key : List Char) :
    Except RedisErrorM NodeAddr :=
  if argsEmpty then
    match cs.nodes with
    | [] => .error ⟨.protoErr, "RedisClusterClient: no nodes"⟩
    | n :: _ => .ok n
  else if key = [] then
    match cs.nodes with
    | [] => .error ⟨.protoErr, "RedisClusterClient: no nodes"⟩
    | n :: _ => .ok n
  else
    match nodeIndexForKey cs key with
    | .error er => .error er
    | .ok idx =>
      if cs.nodes.length ≤ idx then
        .error ⟨.protoErr, "RedisClusterClient: node index out of range"⟩
      else .ok (cs.nodes.getD idx dummyAddr)

/-- Pooled-client acquisition for the routed node; the pool internals
(idle queue, CAS on `live_count`, semaphore wait) are summarized by one
connection event: `none` means a usable pooled client was obtained. -/
def acquireClient (env : NetEnv) (e : Exec) (argsEmpty : Bool) (key : List Char) :
    Except RedisErrorM NodeAddr × Exec :=
  match routeNode e.cs argsEmpty key with
  | .error er => (.error er, e)
  | .ok node =>
    match env.connectOk e.conns with
    | some er => (.error er, { e with conns := e.conns + 1 })
    | none => (.ok node, { e with conns := e.conns + 1 })

/-- Bookkeeping for one routed command attempt: one wire reply is
consumed, the send is logged, the attempt counter advances. -/
def noteAttempt (e : Exec) (node : NodeAddr) (cmd : String) : Exec :=
  { e with cmds := e.cmds + 1, sent := e.sent ++ [(node, cmd)],
           attempts := e.attempts + 1 }

/-- Bookkeeping for one auxiliary wire command (ASKING, ASK retry). -/
def noteSend (e : Exec) (node : NodeAddr) (cmd : String) : Exec :=
  { e with cmds := e.cmds + 1, sent := e.sent ++ [(node, cmd)] }

/-- Embeds the retry loop of `RedisClusterClient::command` (part_006
lines 664-745): acquire a pooled client, run the command, surface non
ServerReply errors, parse ServerReply messages for MOVED (apply and
retry) or ASK (main client of the target, bare ASKING with the reply
ignored, one retry there; a MOVED answer to that retry is applied and
the loop continues), and fail with Protocol "too many redirections"
when the attempt budget is exhausted. -/
def clusterCommandLoop (env : NetEnv) (cmd : String) (argsEmpty : Bool)
    (key : List Char) : Nat → Exec → Except RedisErrorM RValue × Exec
  | 0, e => (.error ⟨.protoErr, "RedisClusterClient: too many redirections"⟩, e)
  | fuel + 1, e =>
    match acquireClient env e argsEmpty key with
    | (.error er, e1) => (.error er, e1)
    | (.ok node, e1) =>
      match env.reply e1.cmds, noteAttempt e1 node cmd with
      | .ok v, e2 => (.ok v, e2)
      | .error err, e2 =>
        if err.cat ≠ ErrCat.serverReply then (.error err, e2)
        else
          match parse_redirection err.msg with
          | none => (.error err, e2)
          | some redir =>
            match redir.typ with
            | .noneR => (.error err, e2)
            | .moved => clusterCommandLoop env cmd argsEmpty key fuel (applyMoved env e2 redir)
            | .ask =>
              match getMainClient env e2 ⟨redir.host, redir.port⟩ with
              | (.error er, e3) => (.error er, e3)
              | (.ok _, e3) =>
                match env.reply (e3.cmds + 1),
                      noteSend (noteSend e3 ⟨redir.host, redir.port⟩ "ASKING")
                        ⟨redir.host, redir.port⟩ cmd with
                | .ok v, e5 => (.ok v, e5)
                | .error err2, e5 =>
                  match parse_redirection err2.msg with
                  | none => (.error err2, e5)
                  | some rd2 =>
                    if rd2.typ = RedirType.moved then
                      clusterCommandLoop env cmd argsEmpty key fuel (applyMoved env e5 rd2)
                    else (.error err2, e5)

/-- Constructor normalization of `max_redirections` (non-positive
configured values become 5). -/
def normalizeMaxRedirections (n : Int) : Nat := if n ≤ 0 then 5 else n.toNat

/-- Full `RedisClusterClient::command` run after discovery: the
redirection loop with the normalized attempt budget. -/
def cluster_command (env : NetEnv) (maxRedirections : Nat) (cmd : String)
    (argsEmpty : Bool) (key : List Char) (e : Exec) :
    Except RedisErrorM RValue × Exec :=
  clusterCommandLoop env cmd argsEmpty key maxRedirections e

/- ===================== Router invariants and C3 ===================== -/

/-- A slot-table entry that resolves to an existing node. -/
def validEntry (cs : ClusterState) (s : Nat) : Prop :=
  0 ≤ cs.slotToNode s ∧ cs.slotToNode s < (cs.nodes.length : Int)

/-- Routability of a command: some node exists, and for a keyed command
with a non-empty key the key's slot is mapped to an existing node. -/
def routeOK (cs : ClusterState) (argsEmpty : Bool) (key : List Char) : Prop :=
  cs.nodes ≠ [] ∧
    (argsEmpty = false → key ≠ [] → validEntry cs (slotOfKey (keyBytes key)))

theorem findNodeIdx_lt_length {nodes : List NodeAddr} {a : NodeAddr} {i : Nat}
    (h : findNodeIdx nodes a = some i) : i < nodes.length := by
  induction nodes generalizing i with
  | nil => simp [findNodeIdx] at h
  | cons n rest ih =>
    by_cases hn : n = a
    · simp only [findNodeIdx, if_pos hn, Option.some.injEq] at h
      simp [← h]
    · simp only [findNodeIdx, if_neg hn, Option.map_eq_some'] at h
      obtain ⟨j, hj, rfl⟩ := h
      have := ih hj
      simp
      omega

theorem routeNode_ok {cs : ClusterState} {argsEmpty : Bool} {key : List Char}
    (h : routeOK cs argsEmpty key) :
    ∃ n, routeNode cs argsEmpty key = .ok n := by
  obtain ⟨hne, hkey⟩ := h
  rcases hnodes : cs.nodes with _ | ⟨n0, rest⟩
  · exact absurd hnodes hne
  · by_cases hae : argsEmpty
    · refine ⟨n0, ?_⟩
      unfold routeNode
      rw [if_pos hae, hnodes]
    · by_cases hk : key = []
      · refine ⟨n0, ?_⟩
        unfold routeNode
        rw [if_neg hae, if_pos hk, hnodes]
      · obtain ⟨hv0, hv1⟩ := hkey (by simpa using hae) hk
        have hslot : slotOfKey (keyBytes key) < 16384 := calc_slot_lt _
        have hn1 : ¬ (cs.nodes = []) := by rw [hnodes]; simp
        have htn : (((slotOfKey (keyBytes key) : Nat) : Int)).toNat =
            slotOfKey (keyBytes key) := by simp
        have hidx : nodeIndexForKey cs key =
            .ok (cs.slotToNode (slotOfKey (keyBytes key))).toNat := by
          unfold nodeIndexForKey nodeIndexForSlot
          rw [if_neg hn1, if_neg hk, htn]
          rw [if_neg (by omega), if_neg (by omega)]
        refine ⟨cs.nodes.getD (cs.slotToNode (slotOfKey (keyBytes key))).toNat dummyAddr, ?_⟩
        unfold routeNode
        rw [if_neg hae, if_neg hk, hidx]
        have hlt : ¬ (cs.nodes.length ≤ (cs.slotToNode (slotOfKey (keyBytes key))).toNat) := by
          omega
        simp [hlt]

theorem acquireClient_ok {env : NetEnv} {e : Exec} {argsEmpty : Bool} {key : List Char}
    {node : NodeAddr} (hroute : routeNode e.cs argsEmpty key = .ok node)
    (hc : env.connectOk e.conns = none) :
    acquireClient env e argsEmpty key = (.ok node, { e with conns := e.conns + 1 }) := by
  unfold acquireClient
  rw [hroute, hc]

theorem ensureNode_nodes_extend (cs : ClusterState) (a : NodeAddr) :
    ∃ ext, (ensureNode cs a).nodes = cs.nodes ++ ext := by
  unfold ensureNode
  rcases h : findNodeIdx cs.nodes a with _ | i
  · exact ⟨[a], rfl⟩
  · exact ⟨[], by simp⟩

theorem ensureNode_slotToNode (cs : ClusterState) (a : NodeAddr) :
    (ensureNode cs a).slotToNode = cs.slotToNode := by
  unfold ensureNode
  rcases h : findNodeIdx cs.nodes a with _ | i <;> rfl

theorem getMainClient_frame (env : NetEnv) (e : Exec) (a : NodeAddr) :
    (getMainClient env e a).2.cs.nodes = (ensureNode e.cs a).nodes ∧
    (getMainClient env e a).2.cs.slotToNode = e.cs.slotToNode ∧
    (getMainClient env e a).2.attempts = e.attempts ∧
    (getMainClient env e a).2.cmds = e.cmds ∧
    (getMainClient env e a).2.sent = e.sent := by
  unfold getMainClient
  split
  · exact ⟨rfl, ensureNode_slotToNode e.cs a, rfl, rfl, rfl⟩
  · rcases h : env.connectOk e.conns with _ | er
    · exact ⟨rfl, ensureNode_slotToNode e.cs a, rfl, rfl, rfl⟩
    · exact ⟨rfl, ensureNode_slotToNode e.cs a, rfl, rfl, rfl⟩

theorem applyMoved_frame (env : NetEnv) (e : Exec) (r : Redirection) :
    (∃ ext, (applyMoved env e r).cs.nodes = e.cs.nodes ++ ext) ∧
    (applyMoved env e r).attempts = e.attempts ∧
    (applyMoved env e r).cmds = e.cmds := by
  rcases hg : getMainClient env e ⟨r.host, r.port⟩ with ⟨res, e1⟩
  have hfr := getMainClient_frame env e ⟨r.host, r.port⟩
  rw [hg] at hfr
  obtain ⟨ext0, hext0⟩ := ensureNode_nodes_extend e.cs ⟨r.host, r.port⟩
  have hnodes' : e1.cs.nodes = e.cs.nodes ++ ext0 := by
    rw [← hext0]
    exact hfr.1
  have hatt' : e1.attempts = e.attempts := hfr.2.2.1
  have hcmds' : e1.cmds = e.cmds := hfr.2.2.2.1
  rcases res with er | u
  · simp only [applyMoved, hg]
    split
    · exact ⟨⟨[], by simp⟩, rfl, rfl⟩
    · exact ⟨⟨ext0, hnodes'⟩, hatt', hcmds'⟩
  · simp only [applyMoved, hg]
    split
    · exact ⟨⟨[], by simp⟩, rfl, rfl⟩
    · rcases hf : findNodeIdx e1.cs.nodes ⟨r.host, r.port⟩ with _ | idx
      · simp only [hf]
        exact ⟨⟨ext0, hnodes'⟩, hatt', hcmds'⟩
      · simp only [hf]
        exact ⟨⟨ext0, hnodes'⟩, hatt', hcmds'⟩

theorem applyMoved_validEntry {env : NetEnv} {e : Exec} {r : Redirection} {s : Nat}
    (h : validEntry e.cs s) : validEntry (applyMoved env e r).cs s := by
  obtain ⟨h0, h1⟩ := h
  rcases hg : getMainClient env e ⟨r.host, r.port⟩ with ⟨res, e1⟩
  have hfr := getMainClient_frame env e ⟨r.host, r.port⟩
  rw [hg] at hfr
  have hslots : e1.cs.slotToNode = e.cs.slotToNode := hfr.2.1
  obtain ⟨ext0, hext0⟩ := ensureNode_nodes_extend e.cs ⟨r.host, r.port⟩
  have hnodes' : e1.cs.nodes = e.cs.nodes ++ ext0 := by
    rw [← hext0]
    exact hfr.1
  have hbase : validEntry e1.cs s := by
    refine ⟨by rw [hslots]; exact h0, ?_⟩
    rw [hslots, hnodes']
    simp only [List.length_append]
    omega
  rcases res with er | u
  · simp only [applyMoved, hg]
    split
    · exact ⟨h0, h1⟩
    · exact hbase
  · simp only [applyMoved, hg]
    split
    · exact ⟨h0, h1⟩
    · rcases hf : findNodeIdx e1.cs.nodes ⟨r.host, r.port⟩ with _ | idx
      · simp only [hf]
        exact hbase
      · simp only [hf]
        have hidx := findNodeIdx_lt_length hf
        constructor
        · show (0 : Int) ≤ (if s = r.slot.toNat then (idx : Int) else e1.cs.slotToNode s)
          by_cases hs : s = r.slot.toNat
          · rw [if_pos hs]
            omega
          · rw [if_neg hs, hslots]
            exact h0
        · show (if s = r.slot.toNat then (idx : Int) else e1.cs.slotToNode s) <
            (e1.cs.nodes.length : Int)
          by_cases hs : s = r.slot.toNat
          · rw [if_pos hs]
            omega
          · rw [if_neg hs, hslots, hnodes']
            simp only [List.length_append]
            omega

theorem applyMoved_routeOK {env : NetEnv} {e : Exec} {r : Redirection} {ae : Bool}
    {key : List Char} (h : routeOK e.cs ae key) :
    routeOK (applyMoved env e r).cs ae key := by
  obtain ⟨hne, hkey⟩ := h
  obtain ⟨ext, hext⟩ := (applyMoved_frame env e r).1
  constructor
  · rw [hext]
    intro hcontra
    exact hne (List.append_eq_nil.mp hcontra).1
  · intro hae hk
    exact applyMoved_validEntry (hkey hae hk)

theorem loop_all_moved (env : NetEnv) (cmd : String) (ae : Bool) (key : List Char)
    (hconn : ∀ n, env.connectOk n = none)
    (hrep : ∀ n, ∃ msg rd, env.reply n = .error ⟨.serverReply, msg⟩ ∧
      parse_redirection msg = some rd ∧ rd.typ = RedirType.moved) :
    ∀ (m : Nat) (e : Exec), routeOK e.cs ae key →
      (clusterCommandLoop env cmd ae key m e).1 =
        .error ⟨.protoErr, "RedisClusterClient: too many redirections"⟩ ∧
      (clusterCommandLoop env cmd ae key m e).2.attempts = e.attempts + m := by
  intro m
  induction m with
  | zero =>
    intro e h
    exact ⟨rfl, rfl⟩
  | succ f ih =>
    intro e h
    obtain ⟨node, hroute⟩ := routeNode_ok h
    have hacq := acquireClient_ok hroute (hconn e.conns)
    obtain ⟨msg, rd, hr, hp, ht⟩ := hrep e.cmds
    simp only [clusterCommandLoop, hacq, hr, hp, ht, ne_eq, not_true_eq_false,
      if_false, Bool.false_eq_true]
    have h2 : routeOK (applyMoved env
        (noteAttempt { e with conns := e.conns + 1 } node cmd) rd).cs ae key :=
      applyMoved_routeOK h
    obtain ⟨hres, hatt⟩ := ih (applyMoved env
      (noteAttempt { e with conns := e.conns + 1 } node cmd) rd) h2
    refine ⟨hres, ?_⟩
    rw [hatt, (applyMoved_frame env _ rd).2.1]
    simp [noteAttempt]
    omega

/-- Claim C3: a cluster command whose every attempt returns a ServerReply
MOVED redirection (acquisitions succeeding) ends in a Protocol error
"too many redirections" after exactly `max_redirections` routed attempts
and never more. -/
theorem claim_C3_redirection_budget (env : NetEnv) (maxRedirections : Nat)
    (cmd : String) (ae : Bool) (key : List Char) (e : Exec)
    (hconn : ∀ n, env.connectOk n = none)
    (hrep : ∀ n, ∃ msg rd, env.reply n = .error ⟨.serverReply, msg⟩ ∧
      parse_redirection msg = some rd ∧ rd.typ = RedirType.moved)
    (hroute : routeOK e.cs ae key) :
    (cluster_command env maxRedirections cmd ae key e).1 =
      .error ⟨.protoErr, "RedisClusterClient: too many redirections"⟩ ∧
    (cluster_command env maxRedirections cmd ae key e).2.attempts =
      e.attempts + maxRedirections :=
  loop_all_moved env cmd ae key hconn hrep maxRedirections e hroute

/-- Network oracle for the C3 witness: every acquisition succeeds, every
reply is the same MOVED redirection. -/
def c3Env : NetEnv :=
  ⟨fun _ => none,
   fun _ => .error ⟨ErrCat.serverReply, "MOVED 12182 127.0.0.1:7001"⟩⟩

/-- Router execution state for the C3 and C4 witnesses: one known node
and a slot table pointing every slot at it. -/
def c3Exec : Exec :=
  ⟨⟨[⟨"127.0.0.1".data, 7000⟩], fun _ => 0, [], false, [0]⟩, 0, 0, [], 0⟩

/-- Parsed form of the witness MOVED message. -/
def c3Redir : Redirection := ⟨RedirType.moved, 12182, "127.0.0.1".data, 7001⟩

/-- Witness evaluating claim C3 on a concrete oracle: a budget of 2 ends
with the Protocol error after exactly 2 attempts. -/
theorem claim_C3_redirection_budget_witness :
    (cluster_command c3Env 2 "GET" true [] c3Exec).1 =
      .error ⟨.protoErr, "RedisClusterClient: too many redirections"⟩ ∧
    (cluster_command c3Env 2 "GET" true [] c3Exec).2.attempts = 2 :=
  claim_C3_redirection_budget c3Env 2 "GET" true [] c3Exec
    (fun _ => rfl)
    (fun _ => ⟨"MOVED 12182 127.0.0.1:7001", c3Redir, rfl, by decide, rfl⟩)
    ⟨by decide, fun hcontra _ => absurd hcontra (by decide)⟩

theorem ensureNode_mainClients (cs : ClusterState) (a : NodeAddr) :
    (ensureNode cs a).mainClients = cs.mainClients := by
  unfold ensureNode
  rcases h : findNodeIdx cs.nodes a with _ | i <;> rfl

theorem findNodeIdx_mem {nodes : List NodeAddr} {a : NodeAddr} {i : Nat}
    (h : findNodeIdx nodes a = some i) : a ∈ nodes := by
  induction nodes generalizing i with
  | nil => simp [findNodeIdx] at h
  | cons n rest ih =>
    by_cases hn : n = a
    · simp [hn]
    · simp only [findNodeIdx, if_neg hn, Option.map_eq_some'] at h
      obtain ⟨j, hj, _⟩ := h
      simp only [List.mem_cons]
      exact Or.inr (ih hj)

theorem ensureNode_mem (cs : ClusterState) (a : NodeAddr) :
    a ∈ (ensureNode cs a).nodes := by
  unfold ensureNode
  rcases h : findNodeIdx cs.nodes a with _ | i
  · simp
  · exact findNodeIdx_mem h

theorem findNodeIdx_of_mem {nodes : List NodeAddr} {a : NodeAddr} (h : a ∈ nodes) :
    ∃ j, findNodeIdx nodes a = some j := by
  induction nodes with
  | nil => simp at h
  | cons n rest ih =>
    by_cases hn : n = a
    · exact ⟨0, by simp [findNodeIdx, hn]⟩
    · have hmem : a ∈ rest := by
        rcases List.mem_cons.mp h with h1 | h2
        · exact absurd h1.symm hn
        · exact h2
      obtain ⟨j, hj⟩ := ih hmem
      exact ⟨j + 1, by simp [findNodeIdx, if_neg hn, hj]⟩

theorem getMainClient_conn_ok {env : NetEnv} (hconn : ∀ n, env.connectOk n = none)
    (e : Exec) (a : NodeAddr) :
    (getMainClient env e a).1 = .ok () ∧
    a ∈ (getMainClient env e a).2.cs.mainClients ∧
    (getMainClient env e a).2.cs.nodes = (ensureNode e.cs a).nodes := by
  unfold getMainClient
  split
  · rename_i hmem
    exact ⟨rfl, hmem, rfl⟩
  · rw [hconn e.conns]
    exact ⟨rfl, by simp, rfl⟩

theorem applyMoved_sets {env : NetEnv} {e : Exec} {rd : Redirection}
    (hconn : ∀ n, env.connectOk n = none)
    (hs0 : 0 ≤ rd.slot) (hs1 : rd.slot < 16384) :
    (⟨rd.host, rd.port⟩ : NodeAddr) ∈ (applyMoved env e rd).cs.nodes ∧
    (⟨rd.host, rd.port⟩ : NodeAddr) ∈ (applyMoved env e rd).cs.mainClients ∧
    ∃ j, findNodeIdx (applyMoved env e rd).cs.nodes ⟨rd.host, rd.port⟩ = some j ∧
      (applyMoved env e rd).cs.slotToNode rd.slot.toNat = (j : Int) := by
  have hguard : ¬ (rd.slot < 0 ∨ 16384 ≤ rd.slot) := by omega
  obtain ⟨hok, hmemc, hnodes⟩ := getMainClient_conn_ok hconn e ⟨rd.host, rd.port⟩
  rcases hg : getMainClient env e ⟨rd.host, rd.port⟩ with ⟨res, e1⟩
  rw [hg] at hok hmemc hnodes
  have hres : res = .ok () := hok
  subst hres
  have hmem1 : (⟨rd.host, rd.port⟩ : NodeAddr) ∈ e1.cs.nodes := by
    rw [show e1.cs.nodes = (ensureNode e.cs ⟨rd.host, rd.port⟩).nodes from hnodes]
    exact ensureNode_mem e.cs ⟨rd.host, rd.port⟩
  obtain ⟨j, hj⟩ := findNodeIdx_of_mem hmem1
  simp only [applyMoved, if_neg hguard, hg, hj]
  refine ⟨hmem1, hmemc, j, rfl, ?_⟩
  simp

/-- Claim C4: on a ServerReply parsing as `MOVED <slot> <host>:<port>`
with the slot in range, the router ensures a main client for the target
(creating the node when unknown), writes that node's index into the slot
table at `slot`, and retries: the remaining run equals the loop with one
less unit of budget from the updated state. -/
theorem claim_C4_moved_updates_and_retries (env : NetEnv) (cmd : String) (ae : Bool)
    (key : List Char) (e : Exec) (fuel : Nat) (msg : String) (rd : Redirection)
    (hconn : ∀ n, env.connectOk n = none)
    (hroute : routeOK e.cs ae key)
    (hr : env.reply e.cmds = .error ⟨.serverReply, msg⟩)
    (hp : parse_redirection msg = some rd)
    (ht : rd.typ = RedirType.moved)
    (hs0 : 0 ≤ rd.slot) (hs1 : rd.slot < 16384) :
    ∃ e2, clusterCommandLoop env cmd ae key (fuel + 1) e =
        clusterCommandLoop env cmd ae key fuel e2 ∧
      (⟨rd.host, rd.port⟩ : NodeAddr) ∈ e2.cs.nodes ∧
      (⟨rd.host, rd.port⟩ : NodeAddr) ∈ e2.cs.mainClients ∧
      ∃ j, findNodeIdx e2.cs.nodes ⟨rd.host, rd.port⟩ = some j ∧
        e2.cs.slotToNode rd.slot.toNat = (j : Int) := by
  obtain ⟨node, hroutn⟩ := routeNode_ok hroute
  have hacq := acquireClient_ok hroutn (hconn e.conns)
  refine ⟨applyMoved env (noteAttempt { e with conns := e.conns + 1 } node cmd) rd,
    ?_, ?_, ?_, ?_⟩
  · simp only [clusterCommandLoop, hacq, hr, hp, ht, ne_eq, not_true_eq_false,
      if_false, Bool.false_eq_true]
  · exact (applyMoved_sets hconn hs0 hs1).1
  · exact (applyMoved_sets hconn hs0 hs1).2.1
  · exact (applyMoved_sets hconn hs0 hs1).2.2

/-- Witness evaluating claim C4 at the concrete MOVED oracle. -/
theorem claim_C4_moved_updates_and_retries_witness :
    ∃ e2, clusterCommandLoop c3Env "GET" true [] (1 + 1) c3Exec =
        clusterCommandLoop c3Env "GET" true [] 1 e2 ∧
      (⟨c3Redir.host, c3Redir.port⟩ : NodeAddr) ∈ e2.cs.nodes ∧
      (⟨c3Redir.host, c3Redir.port⟩ : NodeAddr) ∈ e2.cs.mainClients ∧
      ∃ j, findNodeIdx e2.cs.nodes ⟨c3Redir.host, c3Redir.port⟩ = some j ∧
        e2.cs.slotToNode c3Redir.slot.toNat = (j : Int) :=
  claim_C4_moved_updates_and_retries c3Env "GET" true [] c3Exec 1
    "MOVED 12182 127.0.0.1:7001" c3Redir
    (fun _ => rfl)
    ⟨by decide, fun hcontra _ => absurd hcontra (by decide)⟩
    rfl (by decide) rfl (by decide) (by decide)

/-- Claim C5: on a ServerReply parsing as `ASK <slot> <host>:<port>`,
when the retried command on the target's main client succeeds, the
router sends a bare ASKING first (its reply is unconstrained and
ignored), then the command, returns the target's reply, and leaves
every slot-table entry unchanged. -/
theorem claim_C5_ask_leaves_slots (env : NetEnv) (cmd : String) (ae : Bool)
    (key : List Char) (e : Exec) (fuel : Nat) (msg : String) (rd : Redirection)
    (v : RValue)
    (hconn : ∀ n, env.connectOk n = none)
    (hroute : routeOK e.cs ae key)
    (hr : env.reply e.cmds = .error ⟨.serverReply, msg⟩)
    (hp : parse_redirection msg = some rd)
    (ht : rd.typ = RedirType.ask)
    (hr2 : env.reply (e.cmds + 2) = .ok v) :
    ∃ n0 eF, routeNode e.cs ae key = .ok n0 ∧
      clusterCommandLoop env cmd ae key (fuel + 1) e = (.ok v, eF) ∧
      (∀ s, eF.cs.slotToNode s = e.cs.slotToNode s) ∧
      eF.sent = e.sent ++
        [(n0, cmd), (⟨rd.host, rd.port⟩, "ASKING"), (⟨rd.host, rd.port⟩, cmd)] := by
  obtain ⟨node, hroutn⟩ := routeNode_ok hroute
  have hacq := acquireClient_ok hroutn (hconn e.conns)
  have hok3 := getMainClient_conn_ok hconn
    (noteAttempt { e with conns := e.conns + 1 } node cmd) ⟨rd.host, rd.port⟩
  have hframe := getMainClient_frame env
    (noteAttempt { e with conns := e.conns + 1 } node cmd) ⟨rd.host, rd.port⟩
  rcases hgm : getMainClient env
      (noteAttempt { e with conns := e.conns + 1 } node cmd) ⟨rd.host, rd.port⟩
    with ⟨res3, e3⟩
  rw [hgm] at hok3 hframe
  have hres3 : res3 = .ok () := hok3.1
  subst hres3
  have hcmds3 : e3.cmds = e.cmds + 1 := by
    have h1 : e3.cmds = (noteAttempt { e with conns := e.conns + 1 } node cmd).cmds :=
      hframe.2.2.2.1
    simpa [noteAttempt] using h1
  have hsent3 : e3.sent = e.sent ++ [(node, cmd)] := by
    have h1 : e3.sent = (noteAttempt { e with conns := e.conns + 1 } node cmd).sent :=
      hframe.2.2.2.2
    simpa [noteAttempt] using h1
  have hslots3 : e3.cs.slotToNode = e.cs.slotToNode := hframe.2.1
  have hre3 : env.reply (e3.cmds + 1) = .ok v := by
    rw [hcmds3]
    exact hr2
  refine ⟨node,
    noteSend (noteSend e3 ⟨rd.host, rd.port⟩ "ASKING") ⟨rd.host, rd.port⟩ cmd,
    hroutn, ?_, ?_, ?_⟩
  · simp only [clusterCommandLoop, hacq, hr, hp, ht, ne_eq, not_true_eq_false,
      if_false, Bool.false_eq_true, hgm, hre3]
  · intro s
    simp [noteSend, hslots3]
  · simp [noteSend, hsent3]

/-- Network oracle for the C5 witness: the routed attempt gets an ASK,
the retry on the target returns BulkString bar. -/
def c5Env : NetEnv :=
  ⟨fun _ => none,
   fun n => if n = 2 then .ok (RValue.bulk ['b', 'a', 'r'])
            else .error ⟨ErrCat.serverReply, "ASK 12182 127.0.0.1:7001"⟩⟩

/-- Parsed form of the witness ASK message. -/
def c5Redir : Redirection := ⟨RedirType.ask, 12182, "127.0.0.1".data, 7001⟩

/-- Witness evaluating claim C5 on the concrete ASK oracle. -/
theorem claim_C5_ask_leaves_slots_witness :
    ∃ n0 eF, routeNode c3Exec.cs true [] = .ok n0 ∧
      clusterCommandLoop c5Env "GET" true [] (3 + 1) c3Exec = (.ok (RValue.bulk ['b', 'a', 'r']), eF) ∧
      (∀ s, eF.cs.slotToNode s = c3Exec.cs.slotToNode s) ∧
      eF.sent = c3Exec.sent ++
        [(n0, "GET"), (⟨c5Redir.host, c5Redir.port⟩, "ASKING"),
         (⟨c5Redir.host, c5Redir.port⟩, "GET")] :=
  claim_C5_ask_leaves_slots c5Env "GET" true [] c3Exec 3
    "ASK 12182 127.0.0.1:7001" c5Redir (RValue.bulk ['b', 'a', 'r'])
    (fun _ => rfl)
    ⟨by decide, fun hcontra _ => absurd hcontra (by decide)⟩
    rfl (by decide) rfl rfl

/- ===================== Discovery and fallback (C6) ===================== -/

/-- Prefix test on char lists. -/
def leadsWith : List Char → List Char → Bool
  | [], _ => true
  | _ :: _, [] => false
  | p :: ps, c :: cs => (p == c) && leadsWith ps cs

/-- Substring containment on char lists (`std::string::find != npos`). -/
def hasSub (pat : List Char) : List Char → Bool
  | [] => leadsWith pat []
  | c :: rest => leadsWith pat (c :: rest) || hasSub pat rest

/-- Embeds `is_cluster_disabled_error`: a ServerReply whose message
contains the phrase "cluster support disabled". -/
def checkDisabled (er : RedisErrorM) : Bool :=
  decide (er.cat = ErrCat.serverReply) &&
    hasSub ("cluster support disabled".data) er.msg.data

/-- Cluster configuration fields the discovery model needs. -/
structure ClusterCfgM where
  seeds : List NodeAddr
  maxConnectionsPerNode : Nat

/-- Prewarm loop for one node (part_006 lines 210-223 / 321-334): up to
`k` rounds, each connecting one client (stop on failure) and enqueueing
it while the idle queue has room (capacity `maxConn`). Returns the new
idle count and connection-event cursor. -/
def prewarm (env : NetEnv) (maxConn : Nat) : Nat → Nat → Nat → Nat × Nat
  | 0, idle, conns => (idle, conns)
  | k + 1, idle, conns =>
    match env.connectOk conns with
    | some _ => (idle, conns + 1)
    | none =>
      if idle < maxConn then prewarm env maxConn k (idle + 1) (conns + 1)
      else (idle, conns + 1)

/-- Prewarm every node's pool in order. -/
def prewarmAll (env : NetEnv) (maxConn : Nat) : List Nat → Nat → List Nat × Nat
  | [], conns => ([], conns)
  | idle0 :: rest, conns =>
    match prewarm env maxConn maxConn idle0 conns with
    | (idle1, conns1) =>
      match prewarmAll env maxConn rest conns1 with
      | (restOut, conns2) => (idle1 :: restOut, conns2)

/-- Node lookup-or-create returning the node's index, the shape
`ensure_node_locked` uses. -/
def ensureNodeIdx (cs : ClusterState) (a : NodeAddr) : ClusterState × Nat :=
  match findNodeIdx cs.nodes a with
  | some i => (cs, i)
  | none =>
    ({ cs with nodes := cs.nodes ++ [a], idleCounts := cs.idleCounts ++ [0] },
     cs.nodes.length)

/-- String content of a SimpleString or BulkString (`as_string` behind
the `is_bulk_string() || is_simple_string()` checks). -/
def asStringV : RValue → Option (List Char)
  | .bulk s => some s
  | .simple s => some s
  | _ => none

/-- Embeds `ensure_node_locked`: a node-info value must be an array of at
least `[host, port]` with a string host and an integer port in
1..65535; an empty host falls back to the seed's host; the node is found
or created by `(host, port)`. -/
def ensureNodeFromVal (seedHost : List Char) (cs : ClusterState) (v : RValue) :
    ClusterState × Option Nat :=
  match v with
  | .arr (a :: b :: _) =>
    match asStringV a, b with
    | some hostv, .intv p =>
      if p ≤ 0 ∨ 65535 < p then (cs, none)
      else
        match ensureNodeIdx cs ⟨if hostv = [] then seedHost else hostv, p.toNat⟩ with
        | (cs1, i) => (cs1, some i)
    | _, _ => (cs, none)
  | _ => (cs, none)

/-- Assign a clamped slot range to a node index. -/
def fillRange (cs : ClusterState) (st en : Int) (idx : Nat) : ClusterState :=
  { cs with slotToNode := fun s =>
      if st ≤ (s : Int) ∧ (s : Int) ≤ en then (idx : Int) else cs.slotToNode s }

/-- Embeds one `CLUSTER SLOTS` range entry (part_006 lines 290-312):
`[start, end, master, replicas...]`; ensure the master, assign the
clamped range to it, ensure each replica without assigning slots. -/
def processRange (seedHost : List Char) (cs : ClusterState) (rv : RValue) :
    ClusterState :=
  match rv with
  | .arr (.intv start :: .intv endv :: master :: rest) =>
    match ensureNodeFromVal seedHost cs master with
    | (cs1, none) => cs1
    | (cs1, some idx) =>
      rest.foldl (fun c rv2 => (ensureNodeFromVal seedHost c rv2).1)
        (fillRange cs1 (max start 0) (min endv 16383) idx)
  | _ => cs

/-- Node list the fallback path creates: one node per seed when none
exist yet (part_006 lines 184-198). -/
def fallbackState (cfg : ClusterCfgM) (cs : ClusterState) : ClusterState :=
  if cs.nodes = [] then
    { cs with nodes := cfg.seeds, idleCounts := cfg.seeds.map (fun _ => 0) }
  else cs

/-- Embeds the cluster-disabled fallback (part_006 lines 180-226):
create seed nodes when none exist, point every slot at node 0, set
standalone mode, prewarm every node's pool, and succeed. -/
def enterFallback (env : NetEnv) (cfg : ClusterCfgM) (e : Exec) :
    Except RedisErrorM Unit × Exec :=
  match prewarmAll env cfg.maxConnectionsPerNode
      (fallbackState cfg e.cs).idleCounts e.conns with
  | (idles, conns2) =>
    (.ok (), { e with
      cs := { fallbackState cfg e.cs with
              slotToNode := fun _ => 0, standalone := true, idleCounts := idles },
      conns := conns2 })

/-- Embeds the seed loop of `RedisClusterClient::initial_discovery`
(part_006 lines 151-341): per seed, get a main client, issue CLUSTER
SLOTS, fall back on the cluster-disabled reply, process an array reply
(reset the slot table, process ranges, prewarm), otherwise try the next
seed; all seeds failing is an Io error. -/
def discoverSeeds (env : NetEnv) (cfg : ClusterCfgM) :
    List NodeAddr → Exec → Except RedisErrorM Unit × Exec
  | [], e => (.error ⟨.ioErr, "RedisClusterClient: CLUSTER SLOTS failed on all seeds"⟩, e)
  | seed :: rest, e =>
    match getMainClient env e seed with
    | (.error _, e1) => discoverSeeds env cfg rest e1
    | (.ok _, e1) =>
      match env.reply e1.cmds, noteSend e1 seed "CLUSTER" with
      | .error er, e2 =>
        if checkDisabled er then enterFallback env cfg e2
        else discoverSeeds env cfg rest e2
      | .ok (RValue.arr ranges), e2 =>
        match prewarmAll env cfg.maxConnectionsPerNode
            (ranges.foldl (processRange seed.host)
              { e2.cs with slotToNode := fun _ => -1 }).idleCounts e2.conns with
        | (idles, conns2) =>
          (.ok (), { e2 with
            cs := { (ranges.foldl (processRange seed.host)
                      { e2.cs with slotToNode := fun _ => -1 }) with
                    idleCounts := idles },
            conns := conns2 })
      | .ok _, e2 => discoverSeeds env cfg rest e2

/-- Embeds `RedisClusterClient::initial_discovery`: empty seed list is a
Protocol error, otherwise run the seed loop. -/
def initial_discovery (env : NetEnv) (cfg : ClusterCfgM) (e : Exec) :
    Except RedisErrorM Unit × Exec :=
  if cfg.seeds = [] then
    (.error ⟨.protoErr, "RedisClusterClient: seeds list is empty"⟩, e)
  else discoverSeeds env cfg cfg.seeds e

theorem prewarm_ok {env : NetEnv} (hconn : ∀ n, env.connectOk n = none)
    (maxConn : Nat) :
    ∀ (k idle conns : Nat), idle + k ≤ maxConn →
      prewarm env maxConn k idle conns = (idle + k, conns + k) := by
  intro k
  induction k with
  | zero =>
    intro idle conns h
    simp [prewarm]
  | succ k2 ih =>
    intro idle conns h
    simp only [prewarm, hconn conns]
    rw [if_pos (by omega), ih (idle + 1) (conns + 1) (by omega)]
    simp only [Prod.mk.injEq]
    omega

theorem ensureNode_idleCounts (cs : ClusterState) (a : NodeAddr) :
    (ensureNode cs a).idleCounts = cs.idleCounts ∨
    (ensureNode cs a).idleCounts = cs.idleCounts ++ [0] := by
  unfold ensureNode
  rcases h : findNodeIdx cs.nodes a with _ | i
  · exact Or.inr rfl
  · exact Or.inl rfl

theorem getMainClient_idleCounts (env : NetEnv) (e : Exec) (a : NodeAddr) :
    (getMainClient env e a).2.cs.idleCounts = (ensureNode e.cs a).idleCounts := by
  unfold getMainClient
  split
  · rfl
  · rcases h : env.connectOk e.conns with _ | er <;> rfl

/-- Claim C6: a ServerReply to CLUSTER SLOTS containing "cluster support
disabled" makes discovery enter fallback: the seed-node conditional
creates one node per configured seed only when no nodes exist yet, every
one of the 16384 slot entries is set to 0, standalone mode is set, every
node's pool is prewarmed up to `max_connections_per_node` clients
(exactly that many when every connect succeeds), and discovery returns
success. Started fresh, the node list holds the seed node the discovery
loop itself created. -/
theorem claim_C6_standalone_fallback (env : NetEnv) (cfg : ClusterCfgM) (e : Exec)
    (s0 : NodeAddr) (srest : List NodeAddr) (er : RedisErrorM)
    (hseeds : cfg.seeds = s0 :: srest)
    (hnodes : e.cs.nodes = [])
    (hidle : e.cs.idleCounts = [])
    (hconn : ∀ n, env.connectOk n = none)
    (hr : env.reply e.cmds = .error er)
    (hdis : checkDisabled er = true) :
    (initial_discovery env cfg e).1 = .ok () ∧
    (initial_discovery env cfg e).2.cs.standalone = true ∧
    (initial_discovery env cfg e).2.cs.nodes = [s0] ∧
    (∀ s, (initial_discovery env cfg e).2.cs.slotToNode s = 0) ∧
    (initial_discovery env cfg e).2.cs.idleCounts = [cfg.maxConnectionsPerNode] ∧
    (∀ cs : ClusterState, cs.nodes = [] → (fallbackState cfg cs).nodes = cfg.seeds) := by
  have hne : ¬ (cfg.seeds = []) := by rw [hseeds]; simp
  have hok1 := getMainClient_conn_ok hconn e s0
  have hframe := getMainClient_frame env e s0
  have hic := getMainClient_idleCounts env e s0
  rcases hgm : getMainClient env e s0 with ⟨res1, e1⟩
  rw [hgm] at hok1 hframe hic
  have hres1 : res1 = .ok () := hok1.1
  subst hres1
  have hen : (ensureNode e.cs s0).nodes = [s0] := by
    unfold ensureNode
    rw [show findNodeIdx e.cs.nodes s0 = none from by rw [hnodes]; rfl]
    rw [hnodes]
    rfl
  have henI : (ensureNode e.cs s0).idleCounts = [0] := by
    unfold ensureNode
    rw [show findNodeIdx e.cs.nodes s0 = none from by rw [hnodes]; rfl]
    rw [hidle]
    rfl
  have hn1 : e1.cs.nodes = [s0] := by rw [hframe.1, hen]
  have hi1 : e1.cs.idleCounts = [0] := by rw [hic, henI]
  have hc1 : e1.cmds = e.cmds := hframe.2.2.2.1
  have hr1 : env.reply e1.cmds = .error er := by rw [hc1]; exact hr
  have hfb : fallbackState cfg e1.cs = e1.cs := by
    unfold fallbackState
    rw [if_neg (by rw [hn1]; simp)]
  have hpw : prewarmAll env cfg.maxConnectionsPerNode
      (fallbackState cfg e1.cs).idleCounts (noteSend e1 s0 "CLUSTER").conns =
      ([cfg.maxConnectionsPerNode],
        (noteSend e1 s0 "CLUSTER").conns + cfg.maxConnectionsPerNode) := by
    rw [hfb]
    rw [show e1.cs.idleCounts = [0] from hi1]
    simp only [prewarmAll]
    rw [prewarm_ok hconn cfg.maxConnectionsPerNode cfg.maxConnectionsPerNode 0 _ (by omega)]
    simp
  unfold initial_discovery
  rw [if_neg hne, hseeds]
  simp only [discoverSeeds, hgm, hr1, hdis, if_true, enterFallback]
  rw [show (noteSend e1 s0 "CLUSTER").cs = e1.cs from rfl]
  refine ⟨?_, ?_, ?_, ?_, ?_, ?_⟩
  · trivial
  · trivial
  · rw [hfb, hn1]
  · intro s
    trivial
  · rw [hpw]
  · intro cs hcs
    unfold fallbackState
    rw [if_pos hcs]
    exact hseeds

/-- Oracle for the C6 witness: connections succeed, the CLUSTER SLOTS
reply is the cluster-disabled ServerReply. -/
def c6Env : NetEnv :=
  ⟨fun _ => none,
   fun _ => .error ⟨ErrCat.serverReply,
     "ERR This instance has cluster support disabled"⟩⟩

/-- Configuration for the C6 witness: one seed, pool capacity 2. -/
def c6Cfg : ClusterCfgM := ⟨[⟨"127.0.0.1".data, 6379⟩], 2⟩

/-- Fresh router execution state for the C6 witness. -/
def c6Exec : Exec := ⟨⟨[], fun _ => -1, [], false, []⟩, 0, 0, [], 0⟩

/-- Witness evaluating claim C6 on the concrete fallback oracle. -/
theorem claim_C6_standalone_fallback_witness :
    (initial_discovery c6Env c6Cfg c6Exec).1 = .ok () ∧
    (initial_discovery c6Env c6Cfg c6Exec).2.cs.standalone = true ∧
    (initial_discovery c6Env c6Cfg c6Exec).2.cs.nodes = [⟨"127.0.0.1".data, 6379⟩] ∧
    (∀ s, (initial_discovery c6Env c6Cfg c6Exec).2.cs.slotToNode s = 0) ∧
    (initial_discovery c6Env c6Cfg c6Exec).2.cs.idleCounts = [c6Cfg.maxConnectionsPerNode] ∧
    (∀ cs : ClusterState, cs.nodes = [] → (fallbackState c6Cfg cs).nodes = c6Cfg.seeds) :=
  claim_C6_standalone_fallback c6Env c6Cfg c6Exec ⟨"127.0.0.1".data, 6379⟩ []
    ⟨ErrCat.serverReply, "ERR This instance has cluster support disabled"⟩
    rfl rfl rfl (fun _ => rfl) rfl (by decide)


/- ===================== Sentinel pool (C7) ===================== -/

/-- Oracles for the sentinel pool: outcome of the n-th master
resolution, of the n-th pool `connect_all`, and the n-th forwarded
command reply. -/
structure SentEnv where
  resolveMaster : Nat → Except RedisErrorM NodeAddr
  poolConnectAll : Nat → Option RedisErrorM
  reply : Nat → Except RedisErrorM RValue

/-- Sentinel pool state: the `connected_` flag, the current pool's
master address, oracle cursors, and the count of forwarded commands. -/
structure SentState where
  connected : Bool
  pool : Option NodeAddr
  resolves : Nat
  poolConns : Nat
  cmds : Nat
  forwards : Nat

/-- Pool drop before re-resolution (`connected_ = false; pool_.reset()`). -/
def dropPool (st : SentState) : SentState := { st with connected := false, pool := none }

/-- Bookkeeping for one forwarded command. -/
def bumpForward (st : SentState) : SentState :=
  { st with cmds := st.cmds + 1, forwards := st.forwards + 1 }

/-- Embeds `RedisSentinelPool::ensure_connected_locked`: already
connected with a pool is a no-op; otherwise resolve the master, build
and connect a pool, and record it. -/
def ensureConnected (env : SentEnv) (st : SentState) :
    Except RedisErrorM Unit × SentState :=
  if st.connected = true ∧ st.pool.isSome = true then (.ok (), st)
  else
    match env.resolveMaster st.resolves with
    | .error er => (.error er, { st with resolves := st.resolves + 1 })
    | .ok addr =>
      match env.poolConnectAll st.poolConns with
      | some er =>
        (.error er, { st with resolves := st.resolves + 1,
                              poolConns := st.poolConns + 1 })
      | none =>
        (.ok (), { st with connected := true, pool := some addr,
                           resolves := st.resolves + 1,
                           poolConns := st.poolConns + 1 })

/-- Embeds `RedisSentinelPool::command` (RedisSentinelPool.cpp lines
82-143): ensure connected, forward once; a non-Io failure is returned;
an Io failure drops the pool, re-resolves via `ensure_connected_locked`
and, when that succeeds, retries exactly once, returning whatever the
retry returns; when re-resolution fails the original error is
returned. -/
def sentinel_command (env : SentEnv) (st : SentState) :
    Except RedisErrorM RValue × SentState :=
  match ensureConnected env st with
  | (.error er, s1) => (.error er, s1)
  | (.ok _, s1) =>
    match env.reply s1.cmds, bumpForward s1 with
    | .ok v, s2 => (.ok v, s2)
    | .error err, s2 =>
      if err.cat ≠ ErrCat.ioErr then (.error err, s2)
      else
        match ensureConnected env (dropPool s2) with
        | (.error _, s3) => (.error err, s3)
        | (.ok _, s3) => (env.reply s3.cmds, bumpForward s3)

theorem ensureConnected_resolve_ok {env : SentEnv} (st2 : SentState) {addr : NodeAddr}
    (hnc : st2.connected = false)
    (hres : env.resolveMaster st2.resolves = .ok addr)
    (hpc : env.poolConnectAll st2.poolConns = none) :
    ensureConnected env st2 =
      (.ok (), { st2 with
        connected := true, pool := some addr,
        resolves := st2.resolves + 1, poolConns := st2.poolConns + 1 }) := by
  unfold ensureConnected
  rw [if_neg (by simp [hnc]), hres, hpc]

theorem ensureConnected_resolve_err {env : SentEnv} (st2 : SentState) {e2 : RedisErrorM}
    (hnc : st2.connected = false)
    (hres : env.resolveMaster st2.resolves = .error e2) :
    ensureConnected env st2 =
      (.error e2, { st2 with resolves := st2.resolves + 1 }) := by
  unfold ensureConnected
  rw [if_neg (by simp [hnc]), hres]

theorem ensureConnected_pool_err {env : SentEnv} (st2 : SentState)
    {addr : NodeAddr} {e2 : RedisErrorM}
    (hnc : st2.connected = false)
    (hres : env.resolveMaster st2.resolves = .ok addr)
    (hpc : env.poolConnectAll st2.poolConns = some e2) :
    ensureConnected env st2 =
      (.error e2, { st2 with
        resolves := st2.resolves + 1, poolConns := st2.poolConns + 1 }) := by
  unfold ensureConnected
  rw [if_neg (by simp [hnc]), hres, hpc]

/-- Claim C7: with an established pool, a forwarded command that fails
with a non-Io error is returned without retry (one forward); an Io
failure drops the pool, re-resolves once and retries exactly once,
returning the retry's outcome (two forwards, one extra resolution); and
when the re-resolution fails - either the resolver or the new pool's
connect - the original Io error is returned. -/
theorem claim_C7_sentinel_retry (env : SentEnv) (st : SentState) (a : NodeAddr)
    (er : RedisErrorM)
    (hconn : st.connected = true) (hpool : st.pool = some a)
    (hr : env.reply st.cmds = .error er) :
    (er.cat ≠ ErrCat.ioErr →
      (sentinel_command env st).1 = .error er ∧
      (sentinel_command env st).2.forwards = st.forwards + 1) ∧
    (er.cat = ErrCat.ioErr →
      ∀ addr, env.resolveMaster st.resolves = .ok addr →
        env.poolConnectAll st.poolConns = none →
        (sentinel_command env st).1 = env.reply (st.cmds + 1) ∧
        (sentinel_command env st).2.forwards = st.forwards + 2 ∧
        (sentinel_command env st).2.resolves = st.resolves + 1) ∧
    (er.cat = ErrCat.ioErr →
      ∀ e2, env.resolveMaster st.resolves = .error e2 →
        (sentinel_command env st).1 = .error er) ∧
    (er.cat = ErrCat.ioErr →
      ∀ addr e2, env.resolveMaster st.resolves = .ok addr →
        env.poolConnectAll st.poolConns = some e2 →
        (sentinel_command env st).1 = .error er) := by
  have hen1 : ensureConnected env st = (.ok (), st) := by
    unfold ensureConnected
    rw [if_pos ⟨hconn, by rw [hpool]; rfl⟩]
  refine ⟨?_, ?_, ?_, ?_⟩
  · intro hne
    simp only [sentinel_command, hen1, hr, if_pos hne]
    exact ⟨trivial, rfl⟩
  · intro hio addr hres hpc
    simp only [sentinel_command, hen1, hr]
    rw [if_neg (by simp [hio])]
    rw [ensureConnected_resolve_ok (dropPool (bumpForward st)) rfl hres hpc]
    exact ⟨rfl, rfl, rfl⟩
  · intro hio e2 hres
    simp only [sentinel_command, hen1, hr]
    rw [if_neg (by simp [hio])]
    rw [ensureConnected_resolve_err (dropPool (bumpForward st)) rfl hres]
  · intro hio addr e2 hres hpc
    simp only [sentinel_command, hen1, hr]
    rw [if_neg (by simp [hio])]
    rw [ensureConnected_pool_err (dropPool (bumpForward st)) rfl hres hpc]

/-- Master address used by the C7 witness. -/
def c7Addr : NodeAddr := ⟨"127.0.0.1".data, 6379⟩

/-- Connected sentinel-pool state for the C7 witness. -/
def c7State : SentState := ⟨true, some c7Addr, 0, 0, 0, 0⟩

/-- Oracle whose forwarded command fails with a non-Io error. -/
def c7EnvNonIo : SentEnv :=
  ⟨fun _ => .ok c7Addr, fun _ => none,
   fun _ => .error ⟨ErrCat.protoErr, "WRONGTYPE"⟩⟩

/-- Oracle whose first forward fails with Io and whose re-resolution and
retry succeed. -/
def c7EnvIoOk : SentEnv :=
  ⟨fun _ => .ok c7Addr, fun _ => none,
   fun n => if n = 0 then .error ⟨ErrCat.ioErr, "connection closed"⟩
            else .ok (RValue.intv 2)⟩

/-- Oracle whose first forward fails with Io and whose re-resolution
fails too. -/
def c7EnvIoBad : SentEnv :=
  ⟨fun _ => .error ⟨ErrCat.ioErr, "RedisSentinel: all sentinels failed"⟩,
   fun _ => none,
   fun _ => .error ⟨ErrCat.ioErr, "connection closed"⟩⟩

/-- Witness evaluating claim C7 on the three concrete oracles. -/
theorem claim_C7_sentinel_retry_witness :
    ((sentinel_command c7EnvNonIo c7State).1 = .error ⟨ErrCat.protoErr, "WRONGTYPE"⟩ ∧
      (sentinel_command c7EnvNonIo c7State).2.forwards = 1) ∧
    ((sentinel_command c7EnvIoOk c7State).1 = .ok (RValue.intv 2) ∧
      (sentinel_command c7EnvIoOk c7State).2.forwards = 2 ∧
      (sentinel_command c7EnvIoOk c7State).2.resolves = 1) ∧
    (sentinel_command c7EnvIoBad c7State).1 = .error ⟨ErrCat.ioErr, "connection closed"⟩ := by
  refine ⟨?_, ?_, ?_⟩
  · exact (claim_C7_sentinel_retry c7EnvNonIo c7State c7Addr
      ⟨ErrCat.protoErr, "WRONGTYPE"⟩ rfl rfl rfl).1 (by decide)
  · have h := (claim_C7_sentinel_retry c7EnvIoOk c7State c7Addr
      ⟨ErrCat.ioErr, "connection closed"⟩ rfl rfl rfl).2.1 rfl c7Addr rfl rfl
    exact ⟨h.1, h.2.1, h.2.2⟩
  · exact (claim_C7_sentinel_retry c7EnvIoBad c7State c7Addr
      ⟨ErrCat.ioErr, "connection closed"⟩ rfl rfl rfl).2.2.1 rfl
      ⟨ErrCat.ioErr, "RedisSentinel: all sentinels failed"⟩ rfl

/- ===================== Sentinel resolver (C8) ===================== -/

/-- Oracles for the resolver: outcome of connecting to the i-th sentinel
and of its `SENTINEL get-master-addr-by-name` reply. -/
structure ResolverEnv where
  connectS : Nat → Option RedisErrorM
  replyS : Nat → Except RedisErrorM RValue

/-- Unsigned prefix parse, the success case of `std::from_chars` on
`unsigned long` as the resolver uses it: digits only (no sign), maximal
run, trailing bytes ignored. -/
def fromCharsUnsigned (l : List Char) : Option Nat :=
  if digitHead l then some (readDigits 0 l).1 else none

/-- One sentinel attempt of `resolve_master_from_sentinel`
(RedisSentinel.cpp lines 23-130): connect, query, require an array of at
least two strings, parse the port with `from_chars` and reject only
values above 65535 (`ec != errc() || tmp > 65535`); `none` means this
sentinel is skipped. -/
def sentinelAttempt (env : ResolverEnv) (i : Nat) : Option (List Char × Nat) :=
  match env.connectS i with
  | some _ => none
  | none =>
    match env.replyS i with
    | .error _ => none
    | .ok v =>
      match v with
      | .arr (h0 :: h1 :: _) =>
        match asStringV h0, asStringV h1 with
        | some hostS, some portS =>
          match fromCharsUnsigned portS with
          | none => none
          | some tmp => if 65535 < tmp then none else some (hostS, tmp)
        | _, _ => none
      | _ => none

/-- The sentinel loop: first successful attempt wins; all failing is an
Io error. -/
def resolveLoop (env : ResolverEnv) : Nat → List NodeAddr →
    Except RedisErrorM (List Char × Nat)
  | _, [] => .error ⟨.ioErr, "RedisSentinel: all sentinels failed"⟩
  | i, _ :: rest =>
    match sentinelAttempt env i with
    | none => resolveLoop env (i + 1) rest
    | some (hostS, tmp) => .ok (hostS, tmp)

/-- Embeds `resolve_master_from_sentinel`: empty sentinel list is an Io
error, otherwise the loop; success carries the master `(host, port)`
that overrides the caller's template config. -/
def resolve_master_from_sentinel (env : ResolverEnv) (sentinels : List NodeAddr) :
    Except RedisErrorM (List Char × Nat) :=
  if sentinels = [] then .error ⟨.ioErr, "RedisSentinel: no sentinels configured"⟩
  else resolveLoop env 0 sentinels

/-- Oracle for the C8 counterexample: the single sentinel answers
`[host, "0"]`. -/
def c8Env : ResolverEnv :=
  ⟨fun _ => none,
   fun _ => .ok (RValue.arr [RValue.bulk ['h'], RValue.bulk ['0']])⟩

/-- Counterexample to claim C8 as stated: a `[host, "0"]` reply carries
port 0, outside 1..65535, yet the resolver accepts it and returns port 0
instead of moving on and ending in the Io all-sentinels-failed error the
claim predicts. -/
theorem claim_C8_counterexample :
    resolve_master_from_sentinel c8Env [⟨['s'], 26379⟩] = .ok (['h'], 0) ∧
    ¬ (1 ≤ 0 ∧ 0 ≤ 65535 ∧ 1 ≤ (0 : Nat)) := by
  exact ⟨by rfl, by decide⟩

theorem sentinelAttempt_port_le {env : ResolverEnv} {i : Nat} {hostS : List Char}
    {tmp : Nat} (hs : sentinelAttempt env i = some (hostS, tmp)) : tmp ≤ 65535 := by
  unfold sentinelAttempt at hs
  repeat' split at hs
  all_goals
    first
    | (simp only [Option.some.injEq, Prod.mk.injEq] at hs
       omega)
    | simp at hs

theorem resolveLoop_skip {env : ResolverEnv} {i : Nat} (s : NodeAddr)
    (sentinels : List NodeAddr) (h : sentinelAttempt env i = none) :
    resolveLoop env i (s :: sentinels) = resolveLoop env (i + 1) sentinels := by
  conv_lhs => rw [resolveLoop]
  rw [h]

theorem resolveLoop_all_fail {env : ResolverEnv} (h : ∀ i, sentinelAttempt env i = none) :
    ∀ (sentinels : List NodeAddr) (i : Nat),
      resolveLoop env i sentinels =
        .error ⟨.ioErr, "RedisSentinel: all sentinels failed"⟩ := by
  intro sentinels
  induction sentinels with
  | nil => intro i; rfl
  | cons s rest ih =>
    intro i
    rw [resolveLoop_skip s rest (h i)]
    exact ih (i + 1)

theorem resolveLoop_port_le {env : ResolverEnv} :
    ∀ (sentinels : List NodeAddr) (i : Nat) (host : List Char) (p : Nat),
      resolveLoop env i sentinels = .ok (host, p) → p ≤ 65535 := by
  intro sentinels
  induction sentinels with
  | nil =>
    intro i host p h
    simp [resolveLoop] at h
  | cons s rest ih =>
    intro i host p h
    unfold resolveLoop at h
    rcases hs : sentinelAttempt env i with _ | ⟨hostS, tmp⟩
    · rw [hs] at h
      exact ih (i + 1) host p h
    · rw [hs] at h
      have := sentinelAttempt_port_le hs
      simp only [Except.ok.injEq, Prod.mk.injEq] at h
      omega

/-- Claim C8 (amended): the resolver rejects a reply with missing
fields, an unparseable port, or a port above 65535, and moves on to the
next sentinel (a port of 0 is accepted, contrary to the stated 1..65535
bound); when every sentinel attempt fails the result is an Io error; and
any accepted port is at most 65535. -/
theorem claim_C8_resolver_rejection (env : ResolverEnv) :
    (∀ (i : Nat) (s : NodeAddr) (sentinels : List NodeAddr),
      sentinelAttempt env i = none →
      resolveLoop env i (s :: sentinels) = resolveLoop env (i + 1) sentinels) ∧
    (∀ sentinels : List NodeAddr, (∀ i, sentinelAttempt env i = none) →
      ∃ m, resolve_master_from_sentinel env sentinels = .error ⟨.ioErr, m⟩) ∧
    (∀ (sentinels : List NodeAddr) (host : List Char) (p : Nat),
      resolve_master_from_sentinel env sentinels = .ok (host, p) → p ≤ 65535) := by
  refine ⟨?_, ?_, ?_⟩
  · intro i s sentinels h
    exact resolveLoop_skip s sentinels h
  · intro sentinels h
    unfold resolve_master_from_sentinel
    by_cases hse : sentinels = []
    · rw [if_pos hse]
      exact ⟨"RedisSentinel: no sentinels configured", rfl⟩
    · rw [if_neg hse]
      exact ⟨"RedisSentinel: all sentinels failed", resolveLoop_all_fail h sentinels 0⟩
  · intro sentinels host p h
    unfold resolve_master_from_sentinel at h
    by_cases hse : sentinels = []
    · rw [if_pos hse] at h
      simp at h
    · rw [if_neg hse] at h
      exact resolveLoop_port_le sentinels 0 host p h

/-- Oracle for the C8 witness on which every sentinel attempt fails at
the connect step. -/
def c8FailEnv : ResolverEnv :=
  ⟨fun _ => some ⟨ErrCat.ioErr, "async_connect failed"⟩,
   fun _ => .error ⟨ErrCat.ioErr, "connection closed"⟩⟩

/-- Witness evaluating the amended C8 on concrete oracles: all sentinels
failing yields the Io error, and the accepted port 0 of the
counterexample oracle respects the 65535 upper bound. -/
theorem claim_C8_resolver_rejection_witness :
    (∃ m, resolve_master_from_sentinel c8FailEnv [⟨['s'], 26379⟩] =
      .error ⟨.ioErr, m⟩) ∧ (0 : Nat) ≤ 65535 :=
  ⟨(claim_C8_resolver_rejection c8FailEnv).2.1 [⟨['s'], 26379⟩] (fun _ => rfl),
   (claim_C8_resolver_rejection c8Env).2.2 [⟨['s'], 26379⟩] ['h'] 0 (by rfl)⟩

/- ===================== Client flags (C9) ===================== -/

/-- The three flags of `RedisClient` observed by `is_idle`
(RedisClient.cpp line 74): `connected_`, `closing_`, `in_flight_`. -/
structure ClientFlags where
  connected : Bool
  closing : Bool
  inFlight : Bool
deriving DecidableEq

/-- One mutex-guarded client operation with its relevant outcomes:
`connect` (socket connect outcome, AUTH/SELECT outcome), `command`
(write/read outcome), and a hard close (`hard_close_socket_unlocked`,
also reached by the destructor). -/
inductive ClientOp where
  | connectOp (sockOk authOk : Bool)
  | commandOp (ioOk : Bool)
  | closeOp
deriving DecidableEq

/-- Flag effect of one whole operation, read off RedisClient.cpp:
`connect_unlocked` (97-154) returns at once when already connected,
otherwise clears `closing_`, on socket failure sets `connected_ = false,
closing_ = true`, on AUTH failure hard-closes, on success leaves
`connected_ = true, closing_ = false`; `command` (331-353) returns at
once when not connected, raises `in_flight_` for the span of
`send_and_read_unlocked` and the RAII guard drops it again on every
path, with an I/O failure hard-closing the socket (303-328, 291-294);
`hard_close_socket_unlocked` (78-89) sets `closing_ = true,
connected_ = false`. -/
def stepClient : ClientOp → ClientFlags → ClientFlags
  | ClientOp.connectOp sockOk authOk, s =>
    if s.connected then s
    else if sockOk then
      if authOk then ⟨true, false, s.inFlight⟩
      else ⟨false, true, s.inFlight⟩
    else ⟨false, true, s.inFlight⟩
  | ClientOp.commandOp ioOk, s =>
    if s.connected = false then s
    else if s.closing then ⟨s.connected, s.closing, false⟩
    else if ioOk then ⟨s.connected, s.closing, false⟩
    else ⟨false, true, false⟩
  | ClientOp.closeOp, s => ⟨false, true, s.inFlight⟩

/-- The spec's client-state invariants. -/
abbrev clientInv (s : ClientFlags) : Prop :=
  (s.inFlight = true → s.connected = true ∧ s.closing = false) ∧
  (s.closing = true → s.connected = false)

/-- Whether an operation is an explicit `connect()` call. -/
def isConnectOp : ClientOp → Bool
  | ClientOp.connectOp _ _ => true
  | _ => false

theorem stepClient_inv (op : ClientOp) (s : ClientFlags) (h : clientInv s)
    (hq : op = ClientOp.closeOp → s.inFlight = false) :
    clientInv (stepClient op s) := by
  rcases s with ⟨c, cl, f⟩
  revert h hq
  cases op with
  | connectOp so ao =>
    cases c <;> cases cl <;> cases f <;> cases so <;> cases ao <;> decide
  | commandOp ioOk =>
    cases c <;> cases cl <;> cases f <;> cases ioOk <;> decide
  | closeOp =>
    cases c <;> cases cl <;> cases f <;> decide

theorem stepClient_closing_persists (op : ClientOp) (s : ClientFlags)
    (h : clientInv s) (hcl : s.closing = true) (hop : isConnectOp op = false) :
    (stepClient op s).closing = true ∧ (stepClient op s).connected = false := by
  rcases s with ⟨c, cl, f⟩
  revert h hcl hop
  cases op with
  | connectOp so ao =>
    cases c <;> cases cl <;> cases f <;> cases so <;> cases ao <;> decide
  | commandOp ioOk =>
    cases c <;> cases cl <;> cases f <;> cases ioOk <;> decide
  | closeOp =>
    cases c <;> cases cl <;> cases f <;> decide

/-- Claim C9: every client operation preserves the invariants
`in_flight → connected ∧ ¬closing` and `closing → ¬connected` (the
stand-alone hard close is the destructor, which only runs on a client
with no operation in flight), and a client whose `closing_` flag is set
stays closed and disconnected under any sequence of operations that
contains no explicit `connect()`. -/
theorem claim_C9_client_invariants :
    (∀ (op : ClientOp) (s : ClientFlags), clientInv s →
      (op = ClientOp.closeOp → s.inFlight = false) → clientInv (stepClient op s)) ∧
    (∀ (ops : List ClientOp) (s : ClientFlags),
      (∀ op ∈ ops, isConnectOp op = false) → clientInv s → s.closing = true →
      (List.foldl (fun t o => stepClient o t) s ops).closing = true ∧
      (List.foldl (fun t o => stepClient o t) s ops).connected = false) := by
  refine ⟨stepClient_inv, ?_⟩
  intro ops
  induction ops with
  | nil =>
    intro s _ hinv hcl
    refine ⟨hcl, (hinv.2 hcl)⟩
  | cons op rest ih =>
    intro s hops hinv hcl
    have hop : isConnectOp op = false := hops op (List.mem_cons_self op rest)
    have hrest : ∀ o ∈ rest, isConnectOp o = false :=
      fun o ho => hops o (List.mem_cons_of_mem op ho)
    have hq : op = ClientOp.closeOp → s.inFlight = false := by
      intro _
      cases hf : s.inFlight
      · rfl
      · have h1 := hinv.1 hf
        have h2 := hinv.2 hcl
        rw [h1.1] at h2
        exact Bool.noConfusion h2
    have hstep := stepClient_closing_persists op s hinv hcl hop
    exact ih (stepClient op s) hrest (stepClient_inv op s hinv hq) hstep.1

/-- Witness for C9 at a concrete closed client: a successful command
followed by a close keeps the client closing and disconnected, and one
step preserves the invariant. -/
theorem claim_C9_client_invariants_witness :
    clientInv (stepClient (ClientOp.commandOp true) ⟨false, true, false⟩) ∧
    ((List.foldl (fun t o => stepClient o t) ⟨false, true, false⟩
        [ClientOp.commandOp true, ClientOp.closeOp]).closing = true ∧
      (List.foldl (fun t o => stepClient o t) ⟨false, true, false⟩
        [ClientOp.commandOp true, ClientOp.closeOp]).connected = false) :=
  ⟨claim_C9_client_invariants.1 (ClientOp.commandOp true) ⟨false, true, false⟩
      (by exact ⟨fun h => absurd h (by decide), fun _ => rfl⟩)
      (fun h => ClientOp.noConfusion h),
   claim_C9_client_invariants.2 [ClientOp.commandOp true, ClientOp.closeOp]
      ⟨false, true, false⟩ (by decide)
      ⟨fun h => absurd h (by decide), fun _ => rfl⟩ rfl⟩

/- ===================== Empty-span helpers (C10) ===================== -/

/-- Client state for command-level runs: the flags plus the log of
encoded frames written to the socket. -/
structure CState where
  flags : ClientFlags
  sent : List (List Char)
deriving DecidableEq

/-- Oracles for one client: whether the i-th frame write fully succeeds
and the decoded reply (a ServerReply Error value surfaces as `.error`,
as `read_one_reply_unlocked` maps Error replies, lines 274-276). -/
structure CliEnv where
  writeOk : Nat → Bool
  reply : Nat → Except RedisErrorM RValue

/-- `hard_close_socket_unlocked` on the run state. -/
def hardCloseSt (st : CState) : CState :=
  { st with flags := ⟨false, true, st.flags.inFlight⟩ }

/-- Embeds `send_and_read_unlocked` (RedisClient.cpp 300-329): guard on
`connected_`/`closing_`, encode the frame, write it (failure
hard-closes), then read one reply (an I/O read failure hard-closes,
lines 291-294). -/
def send_and_read (env : CliEnv) (st : CState) (cmd : List Char)
    (args : List (List Char)) : Except RedisErrorM RValue × CState :=
  if st.flags.connected = false || st.flags.closing then
    (.error ⟨.ioErr, "not connected"⟩, st)
  else
    if env.writeOk st.sent.length = false then
      (.error ⟨.ioErr, "write failed"⟩,
       hardCloseSt { st with sent := st.sent ++ [encode_command cmd args] })
    else
      match env.reply st.sent.length with
      | .error e =>
        if e.cat = ErrCat.ioErr then
          (.error e, hardCloseSt { st with sent := st.sent ++ [encode_command cmd args] })
        else
          (.error e, { st with sent := st.sent ++ [encode_command cmd args] })
      | .ok v => (.ok v, { st with sent := st.sent ++ [encode_command cmd args] })

/-- Embeds `RedisClient::command` (331-353): guard on `connected_`,
raise `in_flight_`, run `send_and_read_unlocked`, and the RAII guard
drops `in_flight_` on return. -/
def clientCommand (env : CliEnv) (st : CState) (cmd : List Char)
    (args : List (List Char)) : Except RedisErrorM RValue × CState :=
  if st.flags.connected = false then
    (.error ⟨.ioErr, "RedisClient not connected"⟩, st)
  else
    match send_and_read env { st with flags := ⟨st.flags.connected, st.flags.closing, true⟩ } cmd args with
    | (r, st2) => (r, { st2 with flags := ⟨st2.flags.connected, st2.flags.closing, false⟩ })

/-- Embeds `RedisClient::del` (382-389): empty key span returns 0 at
once; otherwise DEL over the keys, demanding an Integer reply. -/
def del (env : CliEnv) (st : CState) (keys : List (List Char)) :
    Except RedisErrorM Int × CState :=
  if keys = [] then (.ok 0, st)
  else
    match clientCommand env st ['D', 'E', 'L'] keys with
    | (.error e, st2) => (.error e, st2)
    | (.ok (RValue.intv n), st2) => (.ok n, st2)
    | (.ok _, st2) => (.error ⟨.protoErr, "DEL: unexpected type"⟩, st2)

/-- Embeds `RedisClient::sadd` (453-467): empty member span returns 0 at
once; otherwise SADD key members..., demanding an Integer reply. -/
def sadd (env : CliEnv) (st : CState) (key : List Char)
    (members : List (List Char)) : Except RedisErrorM Int × CState :=
  if members = [] then (.ok 0, st)
  else
    match clientCommand env st ['S', 'A', 'D', 'D'] (key :: members) with
    | (.error e, st2) => (.error e, st2)
    | (.ok (RValue.intv n), st2) => (.ok n, st2)
    | (.ok _, st2) => (.error ⟨.protoErr, "SADD: unexpected type"⟩, st2)

/-- Embeds `RedisClient::srem` (469-483), same shape as `sadd`. -/
def srem (env : CliEnv) (st : CState) (key : List Char)
    (members : List (List Char)) : Except RedisErrorM Int × CState :=
  if members = [] then (.ok 0, st)
  else
    match clientCommand env st ['S', 'R', 'E', 'M'] (key :: members) with
    | (.error e, st2) => (.error e, st2)
    | (.ok (RValue.intv n), st2) => (.ok n, st2)
    | (.ok _, st2) => (.error ⟨.protoErr, "SREM: unexpected type"⟩, st2)

/-- Embeds `RedisClient::lpush` (507-521): empty value span returns 0 at
once; otherwise LPUSH key values..., demanding an Integer reply. -/
def lpush (env : CliEnv) (st : CState) (key : List Char)
    (values : List (List Char)) : Except RedisErrorM Int × CState :=
  if values = [] then (.ok 0, st)
  else
    match clientCommand env st ['L', 'P', 'U', 'S', 'H'] (key :: values) with
    | (.error e, st2) => (.error e, st2)
    | (.ok (RValue.intv n), st2) => (.ok n, st2)
    | (.ok _, st2) => (.error ⟨.protoErr, "LPUSH: unexpected type"⟩, st2)

/-- ZADD argument list (548-564): after the key, each member
contributes its rendered score then its name; the score is kept
abstract as the character string `std::to_string` produced. -/
def zaddArgs : List (List Char × List Char) → List (List Char)
  | [] => []
  | (name, score) :: rest => score :: name :: zaddArgs rest

/-- Embeds `RedisClient::zadd` (548-571): empty member span returns 0 at
once; otherwise ZADD key (score member)..., demanding an Integer
reply. -/
def zadd (env : CliEnv) (st : CState) (key : List Char)
    (members : List (List Char × List Char)) : Except RedisErrorM Int × CState :=
  if members = [] then (.ok 0, st)
  else
    match clientCommand env st ['Z', 'A', 'D', 'D'] (key :: zaddArgs members) with
    | (.error e, st2) => (.error e, st2)
    | (.ok (RValue.intv n), st2) => (.ok n, st2)
    | (.ok _, st2) => (.error ⟨.protoErr, "ZADD: unexpected type"⟩, st2)

/-- Claim C10: every multi-key helper called on an empty span of
keys/members/values returns integer 0 with the client state — flags and
the log of sent frames — unchanged, so nothing is encoded or sent. -/
theorem claim_C10_empty_span_helpers (env : CliEnv) (st : CState) (key : List Char) :
    del env st [] = (.ok 0, st) ∧
    sadd env st key [] = (.ok 0, st) ∧
    srem env st key [] = (.ok 0, st) ∧
    lpush env st key [] = (.ok 0, st) ∧
    zadd env st key [] = (.ok 0, st) :=
  ⟨rfl, rfl, rfl, rfl, rfl⟩
